import Mathlib

/-!
# img2sto: a verification development

A shallow embedding of the Go sources of `img2sto` (an HTTP gateway in front of an
object store and an image-processing service) together with theorems about it.

Conventions of the embedding

* Go `string`s are Lean `String`s (sequences of Unicode code points); `len` is the
  UTF-8 byte length.
* Go `int` is the 64-bit signed integer, embedded in `Int`; `uint64` is embedded in
  `Nat` with explicit reduction modulo `2^64`.
* A Go result pair `(v, err)` is a Lean pair whose second component is `Option GoError`
  (`none` is the `nil` error).
* Library calls whose behaviour is fixed by the Go standard library (`regexp`,
  `strconv.Atoi`, `strings.Split`, `url.PathUnescape`, `filepath.Ext`) are modelled
  next to the code that uses them; calls that leave the process (object storage, the
  image service, the multipart parser, content sniffing, the MIME registry) are fields
  of an explicit environment.
-/

namespace Img2sto

open RegularExpression

/-! ## Go runtime and standard library -/

/-- The message carried by a Go `error` value. -/
abbrev GoError := String

/-- Largest value of the Go type `int` (64-bit). -/
def maxInt : Int := 2 ^ 63 - 1

/-- Largest value of the Go type `uint64`. -/
def maxUint64 : Nat := 2 ^ 64 - 1

/-- Go `len(s)`: the number of bytes of the string. -/
def goLen (s : String) : Nat := s.utf8ByteSize

/-- The two failure kinds of `strconv`: `ErrSyntax` and `ErrRange`. -/
inductive NumError where
  | errSyntax
  | errRange
  deriving DecidableEq, Repr

/-- Whether the character is one of `0` .. `9`. -/
def isDigit (c : Char) : Bool := decide ('0' ≤ c) && decide (c ≤ '9')

/-- The value of a decimal digit character (`c - '0'`). -/
def digitVal (c : Char) : Nat := c.toNat - '0'.toNat

/-- The fast path of `strconv.Atoi` after the sign has been removed:
`n = n*10 + int(ch)`, failing on the first character that is not a digit. -/
def atoiFast : List Char → Int → Int × Option NumError
  | [], n => (n, none)
  | ch :: rest, n =>
    if isDigit ch then atoiFast rest (n * 10 + (digitVal ch : Int))
    else (0, some NumError.errSyntax)

/-- The digit loop of `strconv.ParseUint(s, 10, 64)`; `cutoff = maxUint64/10 + 1`. -/
def parseUintLoop : List Char → Nat → Nat × Option NumError
  | [], n => (n, none)
  | c :: rest, n =>
    if isDigit c then
      if n ≥ maxUint64 / 10 + 1 then (maxUint64, some NumError.errRange)
      else
        let n10 := (n * 10) % 2 ^ 64
        let n1 := (n10 + digitVal c) % 2 ^ 64
        if n1 < n10 ∨ n1 > maxUint64 then (maxUint64, some NumError.errRange)
        else parseUintLoop rest n1
    else (0, some NumError.errSyntax)

/-- Go `strconv.ParseUint(s, 10, 64)`. -/
def strconvParseUint (s : List Char) : Nat × Option NumError :=
  if s = [] then (0, some NumError.errSyntax) else parseUintLoop s 0

/-- Go `strconv.ParseInt(s, 10, 0)` on a 64-bit platform. -/
def strconvParseInt (s : List Char) : Int × Option NumError :=
  match s with
  | [] => (0, some NumError.errSyntax)
  | c :: rest =>
    let neg := c = '-'
    let body := if c = '+' ∨ c = '-' then rest else s
    let (un, err) := strconvParseUint body
    if err = some NumError.errSyntax then (0, err)
    else
      let cutoff : Nat := 2 ^ 63
      if ¬ neg ∧ un ≥ cutoff then ((cutoff : Int) - 1, some NumError.errRange)
      else if neg ∧ un > cutoff then (-(cutoff : Int), some NumError.errRange)
      else (if neg then -(un : Int) else (un : Int), none)

/-- Go `strconv.Atoi` on a 64-bit platform: strings of fewer than 19 bytes take the
fast path, all others go through `ParseInt`, which saturates on overflow. -/
def strconvAtoi (s : String) : Int × Option NumError :=
  if 0 < goLen s ∧ goLen s < 19 then
    match s.data with
    | [] => (0, some NumError.errSyntax)
    | c :: rest =>
      if c = '-' ∨ c = '+' then
        if rest.length < 1 then (0, some NumError.errSyntax)
        else
          let r := atoiFast rest 0
          if r.2.isSome then r else (if c = '-' then -r.1 else r.1, none)
      else atoiFast (c :: rest) 0
  else strconvParseInt s.data

/-- Go `strings.Split(s, sep)` for a separator of one byte, on the characters of `s`. -/
def splitChars (sep : Char) : List Char → List (List Char)
  | [] => [[]]
  | c :: cs =>
    if c = sep then [] :: splitChars sep cs
    else
      match splitChars sep cs with
      | [] => [[c]]
      | p :: ps => (c :: p) :: ps

/-- Go `strings.Split(s, sep)` where `sep` is a one-byte string; every call in the
sources has such a separator (`"x"`, `"?"`, and the path separator `"/"`). -/
def stringsSplit (s : String) (sep : Char) : List String :=
  (splitChars sep s.data).map String.mk

/-- The character class `[0-9]`. -/
def reDigit : RegularExpression Char :=
  char '0' + char '1' + char '2' + char '3' + char '4' +
    char '5' + char '6' + char '7' + char '8' + char '9'

/-- The pattern `^[0-9]+$`. -/
def reWidth : RegularExpression Char := reDigit * star reDigit

/-- The pattern `^[0-9]+x[0-9]+$`. -/
def reWidthHeight : RegularExpression Char :=
  reDigit * star reDigit * (char 'x' * (reDigit * star reDigit))

/-- Go `regexp.MatchString(pattern, s)` for a pattern anchored by `^` and `$` (without
the multi-line flag), i.e. a match of the whole string against the expression between
the anchors. The compile error of `MatchString` is always `nil` for the two literal
patterns of the sources. -/
def regexpMatchString (re : RegularExpression Char) (s : String) : Bool :=
  re.rmatch s.data

/-! ## controllers.go: `PrepareDimensions` -/

/-- PrepareDimensions returns dimensions from string input.
Valid cases: `100x100`, `100` as width. -/
def PrepareDimensions (input : String) : List Int × Option GoError :=
  if input = "" then ([], none)
  else if regexpMatchString reWidth input then
    let intInput := (strconvAtoi input).1
    ([intInput], none)
  else if regexpMatchString reWidthHeight input then
    ((stringsSplit input 'x').map (fun item => (strconvAtoi item).1), none)
  else ([], some "Input value is invalid")

/-! ## resize.go: `validateMaxDimensions` -/

/-- In px, same as f.ex. Uploadcare resize. -/
def MaxResizeSize : Int := 3000

/-- The quality parameter sent to the image service. -/
def ResizeJpegQuality : Int := 92

/-- The `for i, item := range input` loop of `validateMaxDimensions`. -/
def validateLoop (dict : List String) : Nat → List Int → Option GoError
  | _, [] => none
  | i, item :: rest =>
    if item > MaxResizeSize then
      some ("Requested resize " ++ dict.getD i "" ++ " is abnormal")
    else validateLoop dict (i + 1) rest

/-- Prevent resizing abnormal dimensions from user. -/
def validateMaxDimensions (input : List Int) : Option GoError :=
  let dict := ["width", "height"]
  if input.length = 1 ∧ input.headD 0 > MaxResizeSize then
    some "Requested resize width is abnormal"
  else if input.length = 2 then validateLoop dict 0 input
  else none

/-! ## Specification-level notions -/

/-- A non-empty list of decimal digits. -/
def DigitList (x : List Char) : Prop := x ≠ [] ∧ ∀ c ∈ x, isDigit c = true

/-- A non-empty string made only of the characters `0` .. `9`: the strings matched by
`^[0-9]+$`. -/
def DigitString (s : String) : Prop := s ≠ "" ∧ ∀ c ∈ s.data, '0' ≤ c ∧ c ≤ '9'

instance (s : String) : Decidable (DigitString s) := by
  unfold DigitString
  infer_instance

/-- The non-negative integer a list of decimal digits denotes in base 10. -/
def decimalValue (cs : List Char) : Nat := Nat.ofDigits 10 (cs.map digitVal).reverse

/-- Horner evaluation of a digit list starting from the accumulator `n`. -/
def horner (n : Nat) (cs : List Char) : Nat := cs.foldl (fun a c => a * 10 + digitVal c) n

/-! ## main.go: constants and the application context -/

/-- The API version segment of the routes. -/
def ApiVersion : String := "v1"

/-- MIME type of JSON bodies. -/
def MIMEApplicationJSON : String := "application/json"

/-- MIME type of JPEG images. -/
def MIMEImageJPEG : String := "image/jpeg"

/-- MIME type of GIF images. -/
def MIMEImageGIF : String := "image/gif"

/-- MIME type of PNG images. -/
def MIMEImagePNG : String := "image/png"

/-- Go `http.StatusOK`. -/
def StatusOK : Nat := 200

/-- Go `http.StatusBadRequest`. -/
def StatusBadRequest : Nat := 400

/-- Go `http.StatusNotFound`. -/
def StatusNotFound : Nat := 404

/-- Go `http.StatusInternalServerError`. -/
def StatusInternalServerError : Nat := 500

/-- A sequence of bytes. -/
abbrev Bytes := List Nat

/-- The process configuration, read from the environment at start-up. -/
structure Config where
  ImageServiceURL : String
  StorageURL : String
  StorageAccessKey : String
  StorageSecretKey : String
  StorageSSL : Bool
  Port : String
  ResizeOnUpload : Bool
  ResizeOnDownload : Bool
  deriving DecidableEq, Repr

/-- The options decoded from the query string. -/
structure Options where
  Enlarge : Bool
  Resize : String
  deriving DecidableEq, Repr

/-- The application context shared by the handlers. The storage client it holds is
represented by the storage operations of the environment. -/
structure AppContext where
  Config : Config
  Options : Options
  Dimensions : List Int
  deriving DecidableEq, Repr

/-! ## The image service seen through `net/http` -/

/-- An HTTP response as the client code reads it: the status code, the bytes of the
body, and the error (if any) hit while reading the body to its end. -/
structure HttpResponse where
  StatusCode : Nat
  Body : Bytes
  bodyErr : Option GoError
  deriving DecidableEq, Repr

/-- What one call of `http.Post` does: the transport takes `consumed` bytes from the
request body (never more than the body holds) and the call returns either a transport
error or a response. -/
structure PostOutcome where
  consumed : Nat
  result : Except GoError HttpResponse

/-- The world reached by `http.Post(url, contentType, body)`; the third argument is the
content the body reader can still deliver when the call is made. -/
abbrev HttpClient := String → String → Bytes → PostOutcome

/-- A request sent by `http.Post`, with the bytes the transport took from its body. -/
structure PostRequest where
  url : String
  contentType : String
  sent : Bytes
  deriving DecidableEq, Repr

/-- Image info as returned by the `/info` endpoint. -/
structure ImageInfo where
  Width : Int
  Height : Int
  deriving DecidableEq, Repr

/-! ## resize.go: streams -/

/-- The readers `ResizeImage` handles: the caller's `input`, the buffer `buf`, the
`io.TeeReader(input, buf)`, and the buffer `result` holding the service's answer. -/
inductive Reader where
  | ofInput
  | ofBuf
  | tee
  | ofResult
  deriving DecidableEq, Repr

/-- The unread content of each underlying stream. -/
structure Streams where
  input : Bytes
  buf : Bytes
  result : Bytes
  deriving DecidableEq, Repr

/-- What a reader can still deliver. Reading through the tee reads `input`. -/
def Reader.remaining (r : Reader) (σ : Streams) : Bytes :=
  match r with
  | Reader.ofInput => σ.input
  | Reader.ofBuf => σ.buf
  | Reader.tee => σ.input
  | Reader.ofResult => σ.result

/-- The streams after `n` bytes have been read from a reader; bytes read through the tee
are appended to `buf`. -/
def Reader.advance (r : Reader) (n : Nat) (σ : Streams) : Streams :=
  match r with
  | Reader.ofInput => { σ with input := σ.input.drop n }
  | Reader.ofBuf => { σ with buf := σ.buf.drop n }
  | Reader.tee => { σ with input := σ.input.drop n, buf := σ.buf ++ σ.input.take n }
  | Reader.ofResult => { σ with result := σ.result.drop n }

/-- The state threaded through `ResizeImage`: the streams and the requests sent so far. -/
structure ResizeState where
  streams : Streams
  requests : List PostRequest
  deriving DecidableEq, Repr

/-- Go `http.Post(url, contentType, body)` with `body` one of the readers. -/
def httpPost (client : HttpClient) (url contentType : String) (body : Reader)
    (st : ResizeState) : Except GoError HttpResponse × ResizeState :=
  let avail := body.remaining st.streams
  let out := client url contentType avail
  let sent := avail.take out.consumed
  (out.result,
    { streams := body.advance out.consumed st.streams,
      requests := st.requests ++ [{ url := url, contentType := contentType, sent := sent }] })

/-- The function `getImageInfo`: POST the image to `/info` and decode the JSON answer.
`decode` stands for `json.NewDecoder(resp.Body).Decode`. -/
def getImageInfo (client : HttpClient) (decode : Bytes → Except GoError ImageInfo)
    (imageServiceURL : String) (input : Reader) (mimeType : String) (st : ResizeState) :
    (Option ImageInfo × Option GoError) × ResizeState :=
  let infoURL := imageServiceURL ++ "/info"
  let (resp, st1) := httpPost client infoURL mimeType input st
  match resp with
  | Except.error err => ((none, some err), st1)
  | Except.ok resp =>
    if resp.StatusCode ≠ StatusOK then
      ((none, some ("Image Service responded unsuccessfully with status " ++
        toString resp.StatusCode)), st1)
    else
      match decode resp.Body with
      | Except.error err => ((none, some err), st1)
      | Except.ok imageInfo => ((some imageInfo, none), st1)

/-- Check image suitability for `enlarge` option.
Don't enlarge if original image width/height is smaller than in required resize option. -/
def checkImageForEnlarge (client : HttpClient) (decode : Bytes → Except GoError ImageInfo)
    (imageServiceURL : String) (input : Reader) (mimeType : String) (dimensions : List Int)
    (st : ResizeState) : (Bool × Option GoError) × ResizeState :=
  match getImageInfo client decode imageServiceURL input mimeType st with
  | ((none, err), st1) => ((false, err), st1)
  | ((some imageInfo, _), st1) =>
    if imageInfo.Width < dimensions.getD 0 0 then ((false, none), st1)
    else if dimensions.length = 2 then
      if imageInfo.Width < dimensions.getD 0 0 then ((false, none), st1)
      else if imageInfo.Height < dimensions.getD 1 0 then ((false, none), st1)
      else ((true, none), st1)
    else ((true, none), st1)

/-- What `ResizeImage` returns, together with the state it leaves behind: the reader
(`none` is Go's `nil`), the error, the streams and the requests it sent. -/
structure ResizeResult where
  reader : Option Reader
  err : Option GoError
  streams : Streams
  requests : List PostRequest
  deriving DecidableEq, Repr

/-- The bytes a caller obtains by reading the returned reader to its end. -/
def ResizeResult.content (r : ResizeResult) : Bytes :=
  match r.reader with
  | none => []
  | some rd => rd.remaining r.streams

/-- The URL built by `ResizeImage` for the `/thumbnail` request. -/
def resizeURL (ctx : AppContext) : String :=
  let url := ctx.Config.ImageServiceURL ++ "/thumbnail?quality=" ++
    toString ResizeJpegQuality ++ "&width=" ++ toString (ctx.Dimensions.getD 0 0)
  if ctx.Dimensions.length = 2 then
    url ++ "&height=" ++ toString (ctx.Dimensions.getD 1 0)
  else url

/-- The part of `ResizeImage` from `// Prepare URL` to the end, once `reqBody` has been
chosen: POST to `/thumbnail`, fall back to `input` on failure, buffer the answer. -/
def postThumbnail (client : HttpClient) (ctx : AppContext) (mimeType : String)
    (reqBody : Reader) (st : ResizeState) : ResizeResult :=
  let (resp, st2) := httpPost client (resizeURL ctx) mimeType reqBody st
  match resp with
  | Except.error _ =>
    -- If Image Service isn't available return input
    { reader := some Reader.ofInput, err := none, streams := st2.streams,
      requests := st2.requests }
  | Except.ok resp =>
    if resp.StatusCode ≠ StatusOK then
      { reader := some Reader.ofInput, err := none, streams := st2.streams,
        requests := st2.requests }
    else
      -- Copy response body to buffer for body closing in this scope
      match resp.bodyErr with
      | some err =>
        { reader := some Reader.ofInput, err := some err, streams := st2.streams,
          requests := st2.requests }
      | none =>
        { reader := some Reader.ofResult, err := none,
          streams := { st2.streams with result := resp.Body },
          requests := st2.requests }

/-- ResizeImage resizes image. `input` holds the bytes the caller's reader can deliver;
`client` is the network behind `http.Post` and `decode` the JSON decoder of image info. -/
def ResizeImage (client : HttpClient) (decode : Bytes → Except GoError ImageInfo)
    (ctx : AppContext) (input : Bytes) (mimeType : String) : ResizeResult :=
  let σ0 : Streams := { input := input, buf := [], result := [] }
  -- Skip if requested dimensions aren't presented
  if ctx.Dimensions.length = 0 then
    { reader := some Reader.ofInput, err := none, streams := σ0, requests := [] }
  -- GIF resizing isn't supported in Imaginary, so skip it
  else if mimeType = MIMEImageGIF then
    { reader := some Reader.ofInput, err := none, streams := σ0, requests := [] }
  else
    -- Validate abnormal dimensions
    match validateMaxDimensions ctx.Dimensions with
    | some err => { reader := none, err := some err, streams := σ0, requests := [] }
    | none =>
      -- We need to duplicate stream to reuse it later in requests & returns on non-200
      let st0 : ResizeState := { streams := σ0, requests := [] }
      -- Prevent extra request for info if `enlarge` option isn't presented
      if ¬ ctx.Options.Enlarge then
        -- Check image suitability for `enlarge` option
        let chk := checkImageForEnlarge client decode ctx.Config.ImageServiceURL Reader.tee
          mimeType ctx.Dimensions st0
        if ¬ chk.1.1 ∨ chk.1.2.isSome then
          { reader := some Reader.ofBuf, err := none, streams := chk.2.streams,
            requests := chk.2.requests }
        else postThumbnail client ctx mimeType Reader.ofBuf chk.2
      else postThumbnail client ctx mimeType Reader.tee st0

/-! ## Example environments -/

/-- A context for the examples: resize of width 100 asked with `enlarge` set. -/
def exampleConfig : Config :=
  { ImageServiceURL := "http://imaginary:9000", StorageURL := "minio:9000",
    StorageAccessKey := "", StorageSecretKey := "", StorageSSL := false, Port := ":8080",
    ResizeOnUpload := true, ResizeOnDownload := true }

/-- An image service that reads the whole request body and answers 500. -/
def failingService : HttpClient :=
  fun _ _ body => { consumed := body.length, result := Except.ok ⟨500, [], none⟩ }

/-- An image service whose `/info` answers 200 and whose `/thumbnail` answers 500; both
read the whole request body. -/
def infoOnlyService : HttpClient :=
  fun url _ body =>
    if url = "http://imaginary:9000/info" then
      { consumed := body.length, result := Except.ok ⟨200, [123, 125], none⟩ }
    else { consumed := body.length, result := Except.ok ⟨500, [], none⟩ }

/-- A decoder reporting a 1000 x 1000 image. -/
def decodeLarge : Bytes → Except GoError ImageInfo :=
  fun _ => Except.ok { Width := 1000, Height := 1000 }

/-- A decoder reporting a 50 x 50 image. -/
def decodeSmall : Bytes → Except GoError ImageInfo :=
  fun _ => Except.ok { Width := 50, Height := 50 }

/-! ## `net/http`: the response writer -/

/-- A piece written to the response body: text or raw bytes. -/
inductive Chunk where
  | text (s : String)
  | data (b : Bytes)
  deriving DecidableEq, Repr

/-- The observable state of an `http.ResponseWriter`: the status code once the header
has been written, the header map, and the body written so far. -/
structure ResponseWriter where
  status : Option Nat
  header : List (String × String)
  body : List Chunk
  deriving DecidableEq, Repr

/-- A fresh response writer. -/
def ResponseWriter.new : ResponseWriter := { status := none, header := [], body := [] }

/-- Go `w.Header().Set(key, value)`. -/
def ResponseWriter.setHeader (w : ResponseWriter) (key value : String) : ResponseWriter :=
  { w with header := (w.header.filter (fun kv => kv.1 ≠ key)) ++ [(key, value)] }

/-- Go `w.WriteHeader(code)`: only the first call fixes the status. -/
def ResponseWriter.WriteHeader (w : ResponseWriter) (code : Nat) : ResponseWriter :=
  match w.status with
  | none => { w with status := some code }
  | some _ => w

/-- Go `w.Write(p)`: writes the header with status 200 first if none was written. -/
def ResponseWriter.Write (w : ResponseWriter) (c : Chunk) : ResponseWriter :=
  let w1 := w.WriteHeader StatusOK
  { w1 with body := w1.body ++ [c] }

/-- Go `http.Error(w, error, code)`. -/
def httpError (w : ResponseWriter) (error : String) (code : Nat) : ResponseWriter :=
  let w1 := w.setHeader "Content-Type" "text/plain; charset=utf-8"
  let w2 := w1.setHeader "X-Content-Type-Options" "nosniff"
  let w3 := w2.WriteHeader code
  w3.Write (Chunk.text (error ++ "\n"))

/-! ## Object storage -/

/-- A call made on the storage client. -/
inductive StorageCall where
  | PutObject (bucketName objectName : String) (data : Bytes) (contentType : String)
  | GetObject (bucketName objectName : String)
  deriving DecidableEq, Repr

/-- An object handed out by `GetObject`: its bytes and the error (if any) met while
reading it. -/
structure StoredObject where
  content : Bytes
  readErr : Option GoError
  deriving DecidableEq, Repr

/-! ## `github.com/satori/go.uuid` -/

/-- A UUID: sixteen bytes. -/
structure UUID where
  bytes : Fin 16 → Fin 256

/-- Go `hex.Encode`: two lower-case hexadecimal digits per byte. -/
def hexEncode (bs : List (Fin 256)) : List Char :=
  bs.flatMap (fun b => [Nat.digitChar (b.val / 16), Nat.digitChar (b.val % 16)])

/-- Go `u[i:j]` for a UUID. -/
def UUID.slice (u : UUID) (i j : Nat) : List (Fin 256) :=
  ((List.ofFn u.bytes).drop i).take (j - i)

/-- The canonical string form `xxxxxxxx-xxxx-xxxx-xxxx-xxxxxxxxxxxx` (method `String`). -/
def UUID.String (u : UUID) : String :=
  String.mk (hexEncode (u.slice 0 4) ++ '-' :: hexEncode (u.slice 4 6) ++
    '-' :: hexEncode (u.slice 6 8) ++ '-' :: hexEncode (u.slice 8 10) ++
    '-' :: hexEncode (u.slice 10 16))

/-! ## The environment of a request -/

/-- Everything outside the process that a handler reaches, with the library functions
that are not modelled in detail.
* `DetectContentType` is `http.DetectContentType`.
* `ExtensionsByType` is `mime.ExtensionsByType` (built-in table and system MIME files).
* `generateID` is the UUID drawn by `uuid.NewV4()` for this request.
* `client` is the network behind `http.Post`; `decodeImageInfo` decodes the `/info` JSON.
* `PutObject` and `GetObject` are the answers of the storage client.
* `Marshal` is `json.Marshal` of an `UploadResponse` with the given file name. -/
structure Env where
  DetectContentType : Bytes → String
  ExtensionsByType : String → List String × Option GoError
  generateID : UUID
  client : HttpClient
  decodeImageInfo : Bytes → Except GoError ImageInfo
  PutObject : String → String → Bytes → String → Int × Option GoError
  GetObject : String → String → Except GoError StoredObject
  Marshal : String → String × Option GoError

/-! ## controllers.go: `GenerateFileName` -/

/-- GenerateFileName generates a new hashed file name. -/
def GenerateFileName (env : Env) (fileType : String) : String × Option GoError :=
  let hash := env.generateID
  let (fileExt, err) := env.ExtensionsByType fileType
  match err with
  | some e => ("", some e)
  | none =>
    match fileExt with
    | [] => ("", some "Can't get file extension from this file type")
    | ext0 :: _ => (hash.String ++ ext0, none)

/-- The loop of Go `filepath.Ext`, scanning from the end of the path: `acc` holds the
characters already passed. -/
def extScan : List Char → List Char → List Char
  | [], _ => []
  | c :: before, acc =>
    if c = '/' then []
    else if c = '.' then '.' :: acc
    else extScan before (c :: acc)

/-- Go `filepath.Ext(path)`: the suffix beginning at the final dot in the final element
of the path; empty if there is no dot. -/
def filepathExt (path : String) : String := String.mk (extScan path.data.reverse [])

/-! ## `net/url` and `strings` -/

/-- Go `ishex`. -/
def ishex (c : Char) : Bool :=
  (decide ('0' ≤ c) && decide (c ≤ '9')) || (decide ('a' ≤ c) && decide (c ≤ 'f')) ||
    (decide ('A' ≤ c) && decide (c ≤ 'F'))

/-- Go `unhex`. -/
def unhex (c : Char) : Nat :=
  if '0' ≤ c ∧ c ≤ '9' then c.toNat - '0'.toNat
  else if 'a' ≤ c ∧ c ≤ 'f' then c.toNat - 'a'.toNat + 10
  else if 'A' ≤ c ∧ c ≤ 'F' then c.toNat - 'A'.toNat + 10
  else 0

/-- The decoding pass of Go `url.unescape` in path-segment mode: every `%XX` becomes the
byte it denotes, everything else is kept; `none` when a `%` is not followed by two
hexadecimal digits. A decoded byte is kept as the code point of the same number. -/
def unescapeChars : List Char → Option (List Char)
  | [] => some []
  | c :: rest =>
    if c = '%' then
      match rest with
      | a :: b :: rest2 =>
        if ishex a ∧ ishex b then
          (unescapeChars rest2).map (fun t => Char.ofNat (unhex a * 16 + unhex b) :: t)
        else none
      | _ => none
    else (unescapeChars rest).map (fun t => c :: t)

/-- Go `url.PathUnescape(s)`: the decoded string, or the empty string and an
`EscapeError`. -/
def urlPathUnescape (s : String) : String × Option GoError :=
  match unescapeChars s.data with
  | some t => (String.mk t, none)
  | none => ("", some "invalid URL escape")

/-- Go `strings.ReplaceAll(s, old, new)` for one-byte `old` and `new`. -/
def stringsReplaceAll (s : String) (old new : Char) : String :=
  String.mk (s.data.map (fun c => if c = old then new else c))

/-! ## Handlers: state and error rendering -/

/-- The maximal size of an upload: 10mb. -/
def MaxUploadSize : Nat := 10 * 1024 * 1024

/-- What a handler has done so far: the response, the application context (the handlers
write `Dimensions` into it), the lines logged by `renderError`, the calls on the storage
client and the requests sent to the image service. -/
structure HandlerState where
  w : ResponseWriter
  ctx : AppContext
  log : List String
  storage : List StorageCall
  requests : List PostRequest
  deriving DecidableEq, Repr

/-- How the execution of a handler ends: it returns, or a run-time panic unwinds it. -/
inductive Outcome where
  | returned
  | panicked (msg : String)
  deriving DecidableEq, Repr

/-- The result of serving one request. -/
structure Served where
  st : HandlerState
  outcome : Outcome
  deriving DecidableEq, Repr

/-- The function `renderError` implements common app error handling: it logs `message`
and `err`, then calls `http.Error(w, err.Error(), statusCode)`. Calling `Error` on the
`nil` error is a nil dereference, a run-time panic raised before `http.Error` runs. -/
def renderError (st : HandlerState) (err : Option GoError) (message : String)
    (statusCode : Nat) : Served :=
  let st1 := { st with log := st.log ++ [message ++ " " ++ err.getD "<nil>"] }
  match err with
  | none =>
    { st := st1,
      outcome := Outcome.panicked
        "runtime error: invalid memory address or nil pointer dereference" }
  | some e => { st := { st1 with w := httpError st1.w e statusCode },
                outcome := Outcome.returned }

/-- Continue with `k` after a statement that may have panicked. -/
def Served.andThen (s : Served) (k : HandlerState → Served) : Served :=
  match s.outcome with
  | Outcome.returned => k s.st
  | Outcome.panicked _ => s

/-! ## controllers.go: the upload handler -/

/-- The file part of a multipart form: its bytes, the error (if any) met by
`io.Copy(buf, file)`, and the `Content-Type` header of the part. -/
structure FormFile where
  content : Bytes
  copyErr : Option GoError
  contentType : String
  deriving DecidableEq, Repr

/-- What the upload handler reads from the request: the `bucket` route variable, the
size of the body, the error of the multipart parser on a body within the size limit,
and the outcome of `r.FormFile("file")`. -/
structure UploadRequest where
  bucket : String
  bodySize : Nat
  multipartErr : Option GoError
  formFile : Except GoError FormFile

/-- Go `r.ParseMultipartForm(MaxUploadSize)` on a body wrapped by
`http.MaxBytesReader(w, r.Body, MaxUploadSize)`. -/
def parseMultipartForm (r : UploadRequest) : Option GoError :=
  if r.bodySize > MaxUploadSize then some "http: request body too large"
  else r.multipartErr

/-- The upload handler from `// Generate hashed filename` on, for a file of accepted
type. -/
def uploadStore (env : Env) (r : UploadRequest) (file : FormFile) (buf : Bytes)
    (fileType : String) (st : HandlerState) : Served :=
  -- Generate hashed filename
  let (fileName, err) := GenerateFileName env fileType
  let s1 : Served :=
    match err with
    | some e => renderError st (some e) "CANT_GENERATE_FILENAME" StatusInternalServerError
    | none => { st := st, outcome := Outcome.returned }
  s1.andThen fun st1 =>
    -- Resize image or don't
    let resized : ResizeResult :=
      if st1.ctx.Config.ResizeOnUpload then
        ResizeImage env.client env.decodeImageInfo st1.ctx buf fileType
      else
        { reader := some Reader.ofInput, err := none,
          streams := { input := buf, buf := [], result := [] }, requests := [] }
    let st2 := { st1 with requests := st1.requests ++ resized.requests }
    match resized.err with
    | some e => renderError st2 (some e) "CANT_RESIZE_FILE" StatusInternalServerError
    | none =>
      -- Post to storage
      let (_, err) := env.PutObject r.bucket fileName resized.content file.contentType
      let st3 := { st2 with storage := st2.storage ++
        [StorageCall.PutObject r.bucket fileName resized.content file.contentType] }
      match err with
      | some e => renderError st3 (some e) "CANT_POST_TO_STORAGE" StatusInternalServerError
      | none =>
        -- Prepare json with result file URL
        let (resultURL, err) := env.Marshal fileName
        match err with
        | some e => renderError st3 (some e) "CANT_MARSHAL_DATA" StatusInternalServerError
        | none =>
          -- Respond
          let w1 := st3.w.setHeader "Content-Type" MIMEApplicationJSON
          let w2 := w1.WriteHeader StatusOK
          { st := { st3 with w := w2.Write (Chunk.text resultURL) },
            outcome := Outcome.returned }

/-- UploadController handles image uploading (method `ServeHTTP` of `UploadHandler`). -/
def UploadHandler.ServeHTTP (env : Env) (ctx : AppContext) (r : UploadRequest) : Served :=
  -- Get resize dimensions with validation
  let (dims, err) := PrepareDimensions ctx.Options.Resize
  let st : HandlerState :=
    { w := ResponseWriter.new, ctx := { ctx with Dimensions := dims }, log := [],
      storage := [], requests := [] }
  match err with
  | some e => renderError st (some e) "RESIZE_PARAMS_ARE_INVALID" StatusBadRequest
  | none =>
    -- Validate file size
    match parseMultipartForm r with
    | some e => renderError st (some e) "FILE_TOO_BIG" StatusBadRequest
    | none =>
      -- Validate file pt.1
      match r.formFile with
      | Except.error e => renderError st (some e) "INVALID_FILE_CONTENT" StatusBadRequest
      | Except.ok file =>
        -- Validate file pt.2
        match file.copyErr with
        | some e => renderError st (some e) "INVALID_FILE_CONTENT" StatusBadRequest
        | none =>
          let buf := file.content
          -- Validate content type
          let fileType := env.DetectContentType buf
          if fileType ≠ MIMEImageJPEG ∧ fileType ≠ MIMEImageGIF ∧ fileType ≠ MIMEImagePNG then
            renderError st none "INVALID_FILE_TYPE" StatusBadRequest
          else uploadStore env r file buf fileType st

/-! ## controllers.go: the download handler -/

/-- What the download handler reads from the request: the raw request URI, and the error
(if any) met when the response body is written to the client. -/
structure DownloadRequest where
  RequestURI : String
  writeErr : Option GoError
  deriving DecidableEq, Repr

/-- The loop `for _, pathPart := range pathParts[2:]` of the download handler: each part
is unescaped (an error is rendered, without leaving the loop, and the part counts as the
empty string), its slashes become colons, and it is appended to `objName` after a
separator. -/
def objNameLoop : List String → String → HandlerState → String × HandlerState
  | [], objName, st => (objName, st)
  | pathPart :: rest, objName, st =>
    -- GOTCHA: Minio requires unescaped symbols
    let (result, err) := urlPathUnescape pathPart
    let st1 : HandlerState :=
      match err with
      | some e => (renderError st (some e) "CANT_UNESCAPE_URL_PART" StatusBadRequest).st
      | none => st
    -- GOTCHA: Minio converts slashes ("/") in directory name (objName) to ":"
    let result := stringsReplaceAll result '/' ':'
    objNameLoop rest (objName ++ "/" ++ result) st1

/-- The bucket and object names the download handler derives from the request URI
(`// Get bucket & object names from request url` up to the removal of the parameters),
with the state after the error renderings of the loop. The path separator is `/`. -/
def bucketAndObject (r : DownloadRequest) (st : HandlerState) :
    String × String × HandlerState :=
  let pathParts := stringsSplit r.RequestURI '/'
  let (bucketName, objName, st1) :=
    if pathParts.length ≥ 2 then
      let bucketName := pathParts.getD 1 ""
      let (objName, st1) := objNameLoop (pathParts.drop 2) "" st
      (bucketName, objName, st1)
    else ("", "", st)
  -- Remove from objName all params (e.g. "resize")
  let objName := (stringsSplit objName '?').headD ""
  (bucketName, objName, st1)

/-- The download handler after the object has been buffered: resize or not, respond. -/
def downloadRespond (env : Env) (r : DownloadRequest) (buf : Bytes) (st : HandlerState) :
    Served :=
  let respond (content : Bytes) (st1 : HandlerState) : Served :=
    -- Respond with data
    let w1 := st1.w.WriteHeader StatusOK
    let st2 := { st1 with w := w1.Write (Chunk.data content) }
    match r.writeErr with
    | some e => renderError st2 (some e) "CANT_RESPOND_FILE" StatusInternalServerError
    | none => { st := st2, outcome := Outcome.returned }
  -- Resize image or don't
  if st.ctx.Config.ResizeOnDownload then
    -- Get content type
    let fileType := env.DetectContentType buf
    if fileType ≠ MIMEImageJPEG ∧ fileType ≠ MIMEImageGIF ∧ fileType ≠ MIMEImagePNG then
      renderError st none "INVALID_FILE_TYPE" StatusBadRequest
    else
      let resized := ResizeImage env.client env.decodeImageInfo st.ctx buf fileType
      let st1 := { st with requests := st.requests ++ resized.requests }
      match resized.err with
      | some e => renderError st1 (some e) "CANT_RESIZE_FILE" StatusInternalServerError
      | none => respond resized.content st1
  else respond buf st

/-- DownloadController handles image downloading (method `ServeHTTP` of
`DownloadHandler`). -/
def DownloadHandler.ServeHTTP (env : Env) (ctx : AppContext) (r : DownloadRequest) :
    Served :=
  -- Get resize dimensions with validation
  let (dims, err) := PrepareDimensions ctx.Options.Resize
  let st : HandlerState :=
    { w := ResponseWriter.new, ctx := { ctx with Dimensions := dims }, log := [],
      storage := [], requests := [] }
  match err with
  | some e => renderError st (some e) "RESIZE_PARAMS_ARE_INVALID" StatusBadRequest
  | none =>
    -- Get bucket & object names from request url
    let (bucketName, objName, st1) := bucketAndObject r st
    -- Get object from storage
    let st2 := { st1 with storage := st1.storage ++
      [StorageCall.GetObject bucketName objName] }
    match env.GetObject bucketName objName with
    | Except.error e =>
      renderError st2 (some e) "CANT_PROCESS_FILE_ON_STORAGE" StatusNotFound
    | Except.ok obj =>
      -- Create buffer for following operations
      match obj.readErr with
      | some e => renderError st2 (some e) "CANT_READ_FILE" StatusInternalServerError
      | none => downloadRespond env r obj.content st2

/-! ## An example environment for the handlers -/

/-- An environment in which every uploaded file sniffs as plain text, the storage
answers every call successfully with a three-byte object, and the image service fails. -/
def exampleEnv : Env :=
  { DetectContentType := fun _ => "text/plain; charset=utf-8",
    ExtensionsByType := fun t =>
      if t = "image/jpeg" then ([".jpg"], none)
      else if t = "image/gif" then ([".gif"], none)
      else if t = "image/png" then ([".png"], none)
      else ([], none),
    generateID := { bytes := fun _ => 0 },
    client := failingService,
    decodeImageInfo := decodeLarge,
    PutObject := fun _ _ data _ => ((data.length : Int), none),
    GetObject := fun _ _ => Except.ok { content := [255, 216, 255], readErr := none },
    Marshal := fun name => ("file=" ++ name, none) }

/-- A context with resizing switched off and no options set. -/
def exampleCtx : AppContext :=
  { Config := { exampleConfig with ResizeOnUpload := false, ResizeOnDownload := false },
    Options := { Enlarge := false, Resize := "" }, Dimensions := [] }

/-- An upload of the five bytes `hello` in the form field `file`. -/
def textUpload : UploadRequest :=
  { bucket := "test", bodySize := 300, multipartErr := none,
    formFile := Except.ok
      { content := [104, 101, 108, 108, 111], copyErr := none, contentType := "text/plain" } }

/-! ## health.go: rounding

The `float64` values of the sources are taken as exact rationals: the definitions below
are the arithmetic of `round`, `toFixed` and `toMegaBytes` without rounding error. -/

/-- Go conversion `int(x)` of a floating-point value: the fraction is discarded
(truncation toward zero). For a value outside the range of `int` the result is
implementation-specific; the value produced on amd64 is used. -/
def floatToInt (x : ℚ) : Int :=
  let t := Int.tdiv x.num x.den
  if -(2 : Int) ^ 63 ≤ t ∧ t ≤ 2 ^ 63 - 1 then t else -(2 : Int) ^ 63

/-- Go `math.Copysign(x, y)`: the magnitude of `x` with the sign of `y`. -/
def mathCopysign (x y : ℚ) : ℚ := if 0 ≤ y then |x| else -|x|

/-- Go `math.Pow(x, float64(n))` for an integer exponent. -/
def mathPow (x : ℚ) (n : Int) : ℚ := x ^ n

/-- MB helps to represent bytes more user-friendly. -/
def MB : ℚ := 1 * 1024 * 1024

/-- The function `round` of health.go. -/
def round (num : ℚ) : Int := floatToInt (num + mathCopysign (1 / 2) num)

/-- The function `toFixed` of health.go. -/
def toFixed (num : ℚ) (precision : Int) : ℚ :=
  let output := mathPow 10 precision
  (round (num * output) : ℚ) / output

/-- The function `toMegaBytes` of health.go. -/
def toMegaBytes (bytes : Nat) : ℚ := toFixed ((bytes : ℚ) / MB) 2

/-- Rounding half away from zero, as the specification words it: `floor(x + 0.5)` for
non-negative `x` and `ceil(x - 0.5)` for negative `x`. -/
def halfAwayFromZero (x : ℚ) : Int := if 0 ≤ x then ⌊x + 1 / 2⌋ else ⌈x - 1 / 2⌉

/-- Modelled from the spec: the registry behind `mime.ExtensionsByType` (the built-in
table of the Go runtime and the MIME files of the host), which is not part of the
sources. The specification and `TestGenerateFileName` state that the first extension
registered for `image/jpeg`, `image/gif` and `image/png` is `.jpg`, `.gif` and `.png`. -/
def RegistryAsSpecified (ext : String → List String × Option GoError) : Prop :=
  (∃ more, ext "image/jpeg" = (".jpg" :: more, none)) ∧
  (∃ more, ext "image/gif" = (".gif" :: more, none)) ∧
  (∃ more, ext "image/png" = (".png" :: more, none))

/-! ## `github.com/gorilla/schema` and middlewares.go -/

/-- Go `url.Values`, the parsed query string: keys with their values, in the order the
decoder visits them. -/
abbrev Values := List (String × List String)

/-- Go `strconv.ParseBool`. -/
def strconvParseBool (s : String) : Option Bool :=
  if s = "1" ∨ s = "t" ∨ s = "T" ∨ s = "true" ∨ s = "TRUE" ∨ s = "True" then some true
  else if s = "0" ∨ s = "f" ∨ s = "F" ∨ s = "false" ∨ s = "FALSE" ∨ s = "False" then
    some false
  else none

/-- The boolean converter of the schema decoder: `on`, or whatever `ParseBool` accepts. -/
def schemaConvertBool (value : String) : Option Bool :=
  if value = "on" then some true else strconvParseBool value

/-- Go `strings.EqualFold` on strings of ASCII letters: equality without regard to case. -/
def equalFold (a b : String) : Bool :=
  a.data.map Char.toLower == b.data.map Char.toLower

/-- What the schema decoder does with one key of the source map when the destination
is an `Options` value: the key is matched against the field names without regard to
case, the last value given is used, an empty value leaves the field as it is (the decoder
is created without `ZeroEmpty`), and an unknown key or an unconvertible value is an
error that leaves the fields as they are. -/
def schemaDecodeKey (dst : Options) (key : String) (values : List String) :
    Options × Option GoError :=
  let val := values.getLastD ""
  if equalFold key "Enlarge" then
    if val = "" then (dst, none)
    else
      match schemaConvertBool val with
      | some b => ({ dst with Enlarge := b }, none)
      | none => (dst, some ("schema: error converting value for \"" ++ key ++ "\""))
  else if equalFold key "Resize" then
    if val = "" then (dst, none) else ({ dst with Resize := val }, none)
  else (dst, some ("schema: invalid path \"" ++ key ++ "\""))

/-- The call `decoder.Decode(dst, src)` of a new schema decoder on an `Options` value:
the keys of `src` are decoded one after another into `dst`; fields whose key is absent
from `src` are not written. The error returned is the first one met. -/
def schemaDecode (dst : Options) : Values → Options × Option GoError
  | [] => (dst, none)
  | (key, values) :: rest =>
    let (dst1, err1) := schemaDecodeKey dst key values
    let (dst2, err2) := schemaDecode dst1 rest
    (dst2, match err1 with
      | some e => some e
      | none => err2)

/-- The response writer obtained when the writes that lead from a fresh writer to `w1`
are made on `w0` instead: the status already written on `w0` stays, headers set later
replace earlier ones, and the body is appended. -/
def ResponseWriter.followedBy (w0 w1 : ResponseWriter) : ResponseWriter :=
  { status := match w0.status with
      | some code => some code
      | none => w1.status,
    header := w0.header.filter (fun kv => !(w1.header.any (fun kv1 => kv1.1 == kv.1))) ++
      w1.header,
    body := w0.body ++ w1.body }

/-- Middleware for OptionsMW prepares options from query params: the query is decoded
into the `Options` of the shared context, a decoding error is rendered with status 400,
and in either case the next handler is called (on the same response writer). -/
def OptionsMW.Middleware (ctx : AppContext) (query : Values) (next : AppContext → Served) :
    Served :=
  let (opts, err) := schemaDecode ctx.Options query
  let ctx1 := { ctx with Options := opts }
  match err with
  | some e =>
    let s0 := renderError
      { w := ResponseWriter.new, ctx := ctx1, log := [], storage := [], requests := [] }
      (some e) "RESIZE_PARAMS_ARE_INVALID" StatusBadRequest
    let s1 := next ctx1
    { st := { s1.st with w := s0.st.w.followedBy s1.st.w, log := s0.st.log ++ s1.st.log },
      outcome := s1.outcome }
  | none => next ctx1

/-! ## main.go: context, router and successive requests -/

/-- CreateContext returns new app context: the configuration, zero `Options` and no
dimensions. -/
def CreateContext (cfg : Config) : AppContext :=
  { Config := cfg, Options := { Enlarge := false, Resize := "" }, Dimensions := [] }

/-- A request matched by one of the two routes of the `/v1` subrouter, with its parsed
query (`r.URL.Query()`). -/
inductive Request where
  | upload (query : Values) (r : UploadRequest)
  | download (query : Values) (r : DownloadRequest)

/-- One request through the subrouter built by `InitRouter`: the options middleware,
then the handler of the route. The CORS and logging middlewares, which do not touch the
context, are left out. -/
def serveRequest (env : Env) (ctx : AppContext) : Request → Served
  | Request.upload query r =>
    OptionsMW.Middleware ctx query (fun c => UploadHandler.ServeHTTP env c r)
  | Request.download query r =>
    OptionsMW.Middleware ctx query (fun c => DownloadHandler.ServeHTTP env c r)

/-- Requests served one after another by the same process: all of them work on the one
context created at start-up, so each request starts from the context the previous one
left. Each request comes with its own environment. -/
def serveAll : AppContext → List (Env × Request) → List Served
  | _, [] => []
  | ctx, (env, req) :: rest =>
    let s := serveRequest env ctx req
    s :: serveAll s.st.ctx rest

/-! ## Example environments for successive requests -/

/-- An environment like `exampleEnv` in which every file sniffs as a JPEG image. -/
def jpegEnv : Env := { exampleEnv with DetectContentType := fun _ => "image/jpeg" }

/-- An upload of three bytes of a JPEG file in the form field `file`. -/
def jpegUpload : UploadRequest :=
  { bucket := "test", bodySize := 300, multipartErr := none,
    formFile := Except.ok
      { content := [255, 216, 255], copyErr := none, contentType := "image/jpeg" } }

/-- Two downloads served one after another: the first asks for `resize=200x200` with
`enlarge=true`, the second has no query string. -/
def twoDownloads : List (Env × Request) :=
  [(jpegEnv, Request.download [("resize", ["200x200"]), ("enlarge", ["true"])]
      { RequestURI := "/v1/test/a.jpg?resize=200x200&enlarge=true", writeErr := none }),
   (jpegEnv, Request.download []
      { RequestURI := "/v1/test/a.jpg", writeErr := none })]

/-- Modelled from the spec: the registry behind `mime.ExtensionsByType`, which is not
part of the sources, lists at least one extension, without error, for each of the three
accepted content types. This is what `RegistryAsSpecified` says without naming the
extensions; the built-in table of Go's `mime` package registers `.jpg`, `.gif` and
`.png`, and the MIME files of a host only add entries. -/
def RegistryListsAcceptedTypes (ext : String → List String × Option GoError) : Prop :=
  ∀ t : String, t = "image/jpeg" ∨ t = "image/gif" ∨ t = "image/png" →
    (ext t).2 = none ∧ (ext t).1 ≠ []

/-! ## Theorems -/

theorem isDigit_iff (c : Char) : isDigit c = true ↔ 48 ≤ c.toNat ∧ c.toNat ≤ 57 := by
  unfold isDigit
  rw [Bool.and_eq_true, decide_eq_true_iff, decide_eq_true_iff, Char.le_def, Char.le_def]
  exact Iff.rfl

theorem isDigit_cases (c : Char) (h : isDigit c = true) :
    c = '0' ∨ c = '1' ∨ c = '2' ∨ c = '3' ∨ c = '4' ∨ c = '5' ∨ c = '6' ∨ c = '7' ∨
      c = '8' ∨ c = '9' := by
  obtain ⟨h1, h2⟩ := (isDigit_iff c).mp h
  have hc : c = Char.ofNat c.toNat := (Char.ofNat_toNat c).symm
  generalize c.toNat = n at h1 h2 hc
  subst hc
  interval_cases n <;> decide

theorem digitVal_lt (c : Char) (h : isDigit c = true) : digitVal c < 10 := by
  obtain ⟨h1, h2⟩ := (isDigit_iff c).mp h
  have : '0'.toNat = 48 := rfl
  unfold digitVal
  omega

theorem horner_nil (n : Nat) : horner n [] = n := rfl

theorem horner_cons (n : Nat) (c : Char) (cs : List Char) :
    horner n (c :: cs) = horner (n * 10 + digitVal c) cs := rfl

theorem le_horner (cs : List Char) : ∀ n : Nat, n ≤ horner n cs := by
  induction cs with
  | nil => intro n; exact le_refl n
  | cons c cs ih =>
    intro n
    rw [horner_cons]
    have := ih (n * 10 + digitVal c)
    omega

theorem horner_eq_decimal (cs : List Char) : horner 0 cs = decimalValue cs := by
  unfold horner decimalValue
  induction cs using List.reverseRecOn with
  | nil => rfl
  | append_singleton l a ih =>
    rw [List.foldl_append, List.map_append, List.reverse_append]
    simp only [List.foldl_cons, List.foldl_nil, List.map_cons, List.map_nil,
      List.reverse_cons, List.reverse_nil, List.nil_append, List.singleton_append,
      Nat.ofDigits_cons]
    rw [ih]
    ring

theorem decimal_lt_pow (cs : List Char) (h : ∀ c ∈ cs, isDigit c = true) :
    decimalValue cs < 10 ^ cs.length := by
  unfold decimalValue
  have := @Nat.ofDigits_lt_base_pow_length 10 (cs.map digitVal).reverse (by norm_num) (by
    intro x hx
    simp only [List.mem_reverse, List.mem_map] at hx
    obtain ⟨c, hc, rfl⟩ := hx
    exact digitVal_lt c (h c hc))
  simpa using this

theorem atoiFast_digits (cs : List Char) (h : ∀ c ∈ cs, isDigit c = true) :
    ∀ n : Nat, atoiFast cs (n : Int) = (((horner n cs : Nat) : Int), none) := by
  induction cs with
  | nil => intro n; rfl
  | cons c cs ih =>
    intro n
    have hc : isDigit c = true := h c (by simp)
    have ih2 := ih (fun d hd => h d (by simp [hd])) (n * 10 + digitVal c)
    rw [horner_cons, ← ih2]
    simp only [atoiFast, hc, if_true]
    push_cast
    rfl

theorem parseUintLoop_digits (cs : List Char) (h : ∀ c ∈ cs, isDigit c = true) :
    ∀ n : Nat, n < 2 ^ 64 →
      parseUintLoop cs n =
        if horner n cs < 2 ^ 64 then (horner n cs, none)
        else (maxUint64, some NumError.errRange) := by
  induction cs with
  | nil =>
    intro n hn
    simp only [parseUintLoop, horner_nil]
    rw [if_pos hn]
  | cons c cs ih =>
    intro n hn
    have hc : isDigit c = true := h c (by simp)
    have hd := digitVal_lt c hc
    have ih2 := ih (fun d hd => h d (by simp [hd]))
    have hmono := le_horner cs (n * 10 + digitVal c)
    have hpow : (2 : Nat) ^ 64 = 18446744073709551616 := by norm_num
    rw [horner_cons]
    have hmax : maxUint64 = 18446744073709551615 := by unfold maxUint64; norm_num
    simp only [parseUintLoop, hc, if_true]
    by_cases h1 : n ≥ maxUint64 / 10 + 1
    · have hbig : ¬ horner (n * 10 + digitVal c) cs < 2 ^ 64 := by
        rw [hmax] at h1
        rw [hpow]
        omega
      rw [if_pos h1, if_neg hbig]
    · rw [if_neg h1]
      have h10 : n * 10 < 2 ^ 64 := by rw [hmax] at h1; rw [hpow]; omega
      rw [Nat.mod_eq_of_lt h10]
      by_cases h2 : n * 10 + digitVal c < 2 ^ 64
      · have hno : ¬ (n * 10 + digitVal c < n * 10 ∨ n * 10 + digitVal c > maxUint64) := by
          rw [hpow] at h2
          rw [hmax]
          omega
        rw [Nat.mod_eq_of_lt h2, if_neg hno, ih2 _ h2]
      · have h3 : (n * 10 + digitVal c) % 2 ^ 64 = n * 10 + digitVal c - 2 ^ 64 := by
          rw [Nat.mod_eq_sub_mod (by omega), Nat.mod_eq_of_lt]
          rw [hpow] at h10 ⊢
          omega
        have hyes : n * 10 + digitVal c - 2 ^ 64 < n * 10 ∨
            n * 10 + digitVal c - 2 ^ 64 > maxUint64 := by
          left
          rw [hpow] at h2 ⊢
          omega
        have hbig : ¬ horner (n * 10 + digitVal c) cs < 2 ^ 64 := by
          rw [hpow] at h2 ⊢
          omega
        rw [h3, if_pos hyes, if_neg hbig]

theorem utf8Size_digit (c : Char) (h : isDigit c = true) : c.utf8Size = 1 := by
  rcases isDigit_cases c h with h | h | h | h | h | h | h | h | h | h <;> subst h <;> rfl

theorem utf8ByteSize_go_digits (cs : List Char) (h : ∀ c ∈ cs, isDigit c = true) :
    String.utf8ByteSize.go cs = cs.length := by
  induction cs with
  | nil => rfl
  | cons c cs ih =>
    simp only [String.utf8ByteSize.go, List.length_cons]
    rw [ih (fun d hd => h d (by simp [hd])), utf8Size_digit c (h c (by simp))]

theorem goLen_digits (s : String) (h : ∀ c ∈ s.data, isDigit c = true) :
    goLen s = s.data.length := by
  unfold goLen String.utf8ByteSize
  exact utf8ByteSize_go_digits s.data h

theorem isDigit_ne_sign (c : Char) (h : isDigit c = true) : c ≠ '-' ∧ c ≠ '+' := by
  constructor <;> rintro rfl <;> exact absurd h (by decide)

theorem strconvAtoi_digits (s : String) (hne : s.data ≠ [])
    (h : ∀ c ∈ s.data, isDigit c = true) :
    (strconvAtoi s).1 = min (decimalValue s.data : Int) maxInt := by
  have hlen := goLen_digits s h
  have hmaxInt : maxInt = 9223372036854775807 := by unfold maxInt; norm_num
  obtain ⟨c, rest, hs⟩ := List.exists_cons_of_ne_nil hne
  have hc : isDigit c = true := h c (by simp [hs])
  obtain ⟨hc1, hc2⟩ := isDigit_ne_sign c hc
  unfold strconvAtoi
  by_cases hfast : 0 < goLen s ∧ goLen s < 19
  · rw [if_pos hfast]
    have hval : atoiFast (c :: rest) 0 = (((horner 0 (c :: rest) : Nat) : Int), none) := by
      have := atoiFast_digits (c :: rest) (by rw [← hs]; exact h) 0
      simpa using this
    have hsign : ¬ (c = '-' ∨ c = '+') := by simp [hc1, hc2]
    rw [hs]
    simp only [if_neg hsign, hval]
    rw [horner_eq_decimal]
    have hlt := decimal_lt_pow (c :: rest) (by rw [← hs]; exact h)
    have hl : (c :: rest).length < 19 := by rw [← hs, ← hlen]; exact hfast.2
    have hpow : 10 ^ (c :: rest).length ≤ 10 ^ 18 :=
      Nat.pow_le_pow_right (by norm_num) (by omega)
    have hb : (decimalValue (c :: rest) : Int) < 10 ^ 18 := by
      have : decimalValue (c :: rest) < 10 ^ 18 := lt_of_lt_of_le hlt hpow
      exact_mod_cast this
    rw [hmaxInt, min_eq_left]
    norm_num at hb ⊢
    omega
  · rw [if_neg hfast]
    have hloop := parseUintLoop_digits s.data h 0 (by norm_num)
    rw [horner_eq_decimal] at hloop
    have hsign : ¬ (c = '+' ∨ c = '-') := by simp [hc1, hc2]
    have hpu : strconvParseUint (c :: rest) = parseUintLoop (c :: rest) 0 := by
      simp [strconvParseUint]
    rw [hs] at hloop ⊢
    have hpow : (2 : Nat) ^ 64 = 18446744073709551616 := by norm_num
    have hpow63 : (2 : Nat) ^ 63 = 9223372036854775808 := by norm_num
    have hmax : maxUint64 = 18446744073709551615 := by unfold maxUint64; norm_num
    by_cases hv : decimalValue (c :: rest) < 2 ^ 64
    · rw [if_pos hv] at hloop
      simp only [strconvParseInt, hc1, hc2, or_self, if_false, hpu, hloop, reduceCtorEq,
        not_false_eq_true, true_and, false_and]
      by_cases hv2 : decimalValue (c :: rest) ≥ 2 ^ 63
      · rw [if_pos hv2, hmaxInt, min_eq_right]
        · norm_num
        · rw [hpow63] at hv2
          omega
      · rw [if_neg hv2, hmaxInt, min_eq_left]
        rw [hpow63] at hv2
        omega
    · rw [if_neg hv] at hloop
      simp only [strconvParseInt, hc1, hc2, or_self, if_false, hpu, hloop,
        not_false_eq_true, true_and, false_and]
      have hv2 : maxUint64 ≥ 2 ^ 63 := by rw [hmax, hpow63]; omega
      have hne2 : ¬ (some NumError.errRange = some NumError.errSyntax) := by decide
      rw [if_neg hne2, if_pos hv2, hmaxInt, min_eq_right]
      · norm_num
      · rw [hpow] at hv
        omega

theorem reDigit_rmatch_iff (x : List Char) :
    reDigit.rmatch x = true ↔ ∃ c, isDigit c = true ∧ x = [c] := by
  unfold reDigit
  simp only [add_rmatch_iff, char_rmatch_iff]
  constructor
  · intro h
    rcases h with (((((((((h | h) | h) | h) | h) | h) | h) | h) | h) | h) <;> subst h <;>
      exact ⟨_, by decide, rfl⟩
  · rintro ⟨c, hc, rfl⟩
    have := isDigit_cases c hc
    simpa [or_assoc] using this

theorem star_reDigit_rmatch_iff (x : List Char) :
    (star reDigit).rmatch x = true ↔ ∀ c ∈ x, isDigit c = true := by
  rw [star_rmatch_iff]
  constructor
  · rintro ⟨S, rfl, hS⟩ c hc
    rw [List.mem_flatten] at hc
    obtain ⟨t, ht, hct⟩ := hc
    obtain ⟨d, hd, rfl⟩ := (reDigit_rmatch_iff t).mp (hS t ht).2
    simp at hct
    subst hct
    exact hd
  · intro h
    refine ⟨x.map (fun c => [c]), ?_, ?_⟩
    · clear h
      induction x with
      | nil => rfl
      | cons a l ih => simpa [List.flatten] using ih
    · intro t ht
      rw [List.mem_map] at ht
      obtain ⟨c, hc, rfl⟩ := ht
      exact ⟨by simp, (reDigit_rmatch_iff _).mpr ⟨c, h c hc, rfl⟩⟩

theorem reWidth_rmatch_iff (x : List Char) :
    reWidth.rmatch x = true ↔ DigitList x := by
  unfold reWidth DigitList
  rw [mul_rmatch_iff]
  constructor
  · rintro ⟨t, u, rfl, ht, hu⟩
    obtain ⟨d, hd, rfl⟩ := (reDigit_rmatch_iff t).mp ht
    rw [star_reDigit_rmatch_iff] at hu
    refine ⟨by simp, ?_⟩
    intro c hc
    simp at hc
    rcases hc with rfl | hc
    · exact hd
    · exact hu c hc
  · rintro ⟨hne, h⟩
    cases x with
    | nil => exact absurd rfl hne
    | cons a l =>
      refine ⟨[a], l, rfl, (reDigit_rmatch_iff _).mpr ⟨a, h a (by simp), rfl⟩, ?_⟩
      rw [star_reDigit_rmatch_iff]
      intro c hc
      exact h c (by simp [hc])

theorem reWidthHeight_rmatch_iff (x : List Char) :
    reWidthHeight.rmatch x = true ↔ ∃ w h, DigitList w ∧ DigitList h ∧ x = w ++ 'x' :: h := by
  unfold reWidthHeight
  rw [mul_rmatch_iff]
  constructor
  · rintro ⟨t, u, rfl, ht, hu⟩
    rw [mul_rmatch_iff] at hu
    obtain ⟨a, b, rfl, ha, hb⟩ := hu
    rw [char_rmatch_iff] at ha
    subst ha
    exact ⟨t, b, (reWidth_rmatch_iff t).mp ht, (reWidth_rmatch_iff b).mp hb, rfl⟩
  · rintro ⟨w, h, hw, hh, rfl⟩
    refine ⟨w, 'x' :: h, rfl, (reWidth_rmatch_iff w).mpr hw, ?_⟩
    rw [mul_rmatch_iff]
    exact ⟨['x'], h, rfl, (char_rmatch_iff _ _).mpr rfl, (reWidth_rmatch_iff h).mpr hh⟩

theorem splitChars_no_sep (sep : Char) (w : List Char) (hw : sep ∉ w) :
    splitChars sep w = [w] := by
  induction w with
  | nil => rfl
  | cons c cs ih =>
    have hc : c ≠ sep := fun h => hw (by simp [h])
    have hcs : sep ∉ cs := fun h => hw (by simp [h])
    simp [splitChars, hc, ih hcs]

theorem splitChars_append_sep (sep : Char) (w r : List Char) (hw : sep ∉ w) :
    splitChars sep (w ++ sep :: r) = w :: splitChars sep r := by
  induction w with
  | nil => simp [splitChars]
  | cons c cs ih =>
    have hc : c ≠ sep := fun h => hw (by simp [h])
    have hcs : sep ∉ cs := fun h => hw (by simp [h])
    simp [splitChars, hc, ih hcs]

theorem digitString_iff (s : String) : DigitString s ↔ DigitList s.data := by
  unfold DigitString DigitList
  have h1 : s ≠ "" ↔ s.data ≠ [] := by
    constructor
    · intro h hd
      exact h (String.ext hd)
    · intro h hs
      exact h (by rw [hs])
  have h2 : ∀ c : Char, ('0' ≤ c ∧ c ≤ '9') ↔ isDigit c = true := by
    intro c
    simp [isDigit]
  simp only [h1, h2]

theorem digitList_no_x (w : List Char) (hw : DigitList w) : 'x' ∉ w := by
  intro h
  exact absurd (hw.2 'x' h) (by decide)

theorem digitList_not_with_x (w h : List Char) : ¬ DigitList (w ++ 'x' :: h) := by
  intro hd
  exact absurd (hd.2 'x' (by simp)) (by decide)

theorem PrepareDimensions_digits (w : String) (hw : DigitString w) :
    PrepareDimensions w = ([min (decimalValue w.data : Int) maxInt], none) := by
  have hl := (digitString_iff w).mp hw
  unfold PrepareDimensions
  rw [if_neg hw.1]
  have hm : regexpMatchString reWidth w = true := (reWidth_rmatch_iff _).mpr hl
  rw [if_pos hm]
  simp only [strconvAtoi_digits w hl.1 hl.2]

theorem PrepareDimensions_digits_x_digits (w h : String) (hw : DigitString w)
    (hh : DigitString h) :
    PrepareDimensions (w ++ "x" ++ h) =
      ([min (decimalValue w.data : Int) maxInt, min (decimalValue h.data : Int) maxInt],
        none) := by
  have hlw := (digitString_iff w).mp hw
  have hlh := (digitString_iff h).mp hh
  have hdata : (w ++ "x" ++ h).data = w.data ++ 'x' :: h.data := by
    simp [String.data_append]
  have hne : ¬ (w ++ "x" ++ h = "") := by
    intro he
    have := congrArg String.data he
    rw [hdata] at this
    simp at this
  have hm1 : ¬ (regexpMatchString reWidth (w ++ "x" ++ h) = true) := by
    unfold regexpMatchString
    rw [reWidth_rmatch_iff, hdata]
    exact digitList_not_with_x _ _
  have hm2 : regexpMatchString reWidthHeight (w ++ "x" ++ h) = true := by
    unfold regexpMatchString
    rw [reWidthHeight_rmatch_iff, hdata]
    exact ⟨_, _, hlw, hlh, rfl⟩
  have hsplit : stringsSplit (w ++ "x" ++ h) 'x' = [w, h] := by
    unfold stringsSplit
    rw [hdata, splitChars_append_sep _ _ _ (digitList_no_x _ hlw),
      splitChars_no_sep _ _ (digitList_no_x _ hlh)]
    rfl
  unfold PrepareDimensions
  rw [if_neg hne, if_neg hm1, if_pos hm2, hsplit]
  simp only [List.map_cons, List.map_nil, strconvAtoi_digits w hlw.1 hlw.2,
    strconvAtoi_digits h hlh.1 hlh.2]

theorem PrepareDimensions_error_iff_aux (s : String) :
    (PrepareDimensions s).2.isSome = true ↔
      s ≠ "" ∧ ¬ DigitString s ∧
        ¬ ∃ w h : String, DigitString w ∧ DigitString h ∧ s = w ++ "x" ++ h := by
  have hwh : regexpMatchString reWidthHeight s = true ↔
      ∃ w h : String, DigitString w ∧ DigitString h ∧ s = w ++ "x" ++ h := by
    unfold regexpMatchString
    rw [reWidthHeight_rmatch_iff]
    constructor
    · rintro ⟨w, h, hw, hh, hs⟩
      refine ⟨String.mk w, String.mk h, (digitString_iff _).mpr hw, (digitString_iff _).mpr hh, ?_⟩
      apply String.ext
      simp [String.data_append, hs]
    · rintro ⟨w, h, hw, hh, rfl⟩
      exact ⟨w.data, h.data, (digitString_iff _).mp hw, (digitString_iff _).mp hh, by
        simp [String.data_append]⟩
  have hwd : regexpMatchString reWidth s = true ↔ DigitString s := by
    unfold regexpMatchString
    rw [reWidth_rmatch_iff, digitString_iff]
  unfold PrepareDimensions
  by_cases h0 : s = ""
  · simp [h0]
  · rw [if_neg h0]
    by_cases h1 : regexpMatchString reWidth s = true
    · rw [if_pos h1]
      simp [hwd.mp h1]
    · rw [if_neg h1]
      by_cases h2 : regexpMatchString reWidthHeight s = true
      · rw [if_pos h2]
        have := hwh.mp h2
        simp only [Option.isSome_none, Bool.false_eq_true, false_iff, not_and, not_not]
        intro _ _
        exact this
      · rw [if_neg h2]
        simp only [Option.isSome_some, true_iff]
        exact ⟨h0, fun hd => h1 (hwd.mpr hd), fun he => h2 (hwh.mpr he)⟩

theorem min_maxInt_nonneg (n : Nat) : (0 : Int) ≤ min (n : Int) maxInt := by
  have : (0 : Int) ≤ maxInt := by unfold maxInt; norm_num
  exact le_min (Int.natCast_nonneg n) this

/-- C4. `PrepareDimensions` fails exactly on the non-empty strings that are neither a
non-empty run of decimal digits (`^[0-9]+$`) nor two such runs joined by one `x`
(`^[0-9]+x[0-9]+$`); the empty string gives the empty sequence without error, and
`abc`, `200x`, `x300` are rejected. -/
theorem PrepareDimensions_error_iff :
    (∀ s : String, (PrepareDimensions s).2.isSome = true ↔
      s ≠ "" ∧ ¬ DigitString s ∧
        ¬ ∃ w h : String, DigitString w ∧ DigitString h ∧ s = w ++ "x" ++ h) ∧
    PrepareDimensions "" = ([], none) ∧
    (PrepareDimensions "abc").2.isSome = true ∧
    (PrepareDimensions "200x").2.isSome = true ∧
    (PrepareDimensions "x300").2.isSome = true :=
  ⟨PrepareDimensions_error_iff_aux, by decide, by decide, by decide, by decide⟩

/-- C5 as stated fails: the nineteen-digit string `9223372036854775808` denotes `2^63`,
yet `PrepareDimensions` returns `[2^63 - 1]`, because `strconv.Atoi` saturates at the
largest `int` and its range error is discarded. -/
theorem PrepareDimensions_saturates :
    DigitString "9223372036854775808" ∧
    decimalValue "9223372036854775808".data = 9223372036854775808 ∧
    PrepareDimensions "9223372036854775808" = ([9223372036854775807], none) ∧
    PrepareDimensions "9223372036854775808" ≠
      ([(decimalValue "9223372036854775808".data : Int)], none) := by
  refine ⟨by decide, by decide, by decide, by decide⟩

/-- C5 (amended). For non-empty digit strings `w` and `h`, `PrepareDimensions w` is the
one-element sequence holding the denoted number capped at `2^63 - 1`, and
`PrepareDimensions (w ++ "x" ++ h)` is the two-element sequence of the two capped
numbers; every successful result has at most two entries, none negative. -/
theorem PrepareDimensions_value (w h : String) (hw : DigitString w) (hh : DigitString h) :
    PrepareDimensions w = ([min (decimalValue w.data : Int) (2 ^ 63 - 1)], none) ∧
    PrepareDimensions (w ++ "x" ++ h) =
      ([min (decimalValue w.data : Int) (2 ^ 63 - 1),
        min (decimalValue h.data : Int) (2 ^ 63 - 1)], none) ∧
    (∀ s : String, (PrepareDimensions s).2 = none →
      (PrepareDimensions s).1.length ≤ 2 ∧ ∀ x ∈ (PrepareDimensions s).1, 0 ≤ x) := by
  refine ⟨PrepareDimensions_digits w hw, PrepareDimensions_digits_x_digits w h hw hh, ?_⟩
  intro s hs
  have herr := PrepareDimensions_error_iff_aux s
  by_cases h0 : s = ""
  · subst h0
    exact ⟨by decide, by decide⟩
  · by_cases h1 : DigitString s
    · rw [PrepareDimensions_digits s h1]
      refine ⟨by simp, ?_⟩
      intro x hx
      simp only [List.mem_singleton] at hx
      subst hx
      exact min_maxInt_nonneg _
    · by_cases h2 : ∃ a b : String, DigitString a ∧ DigitString b ∧ s = a ++ "x" ++ b
      · obtain ⟨a, b, ha, hb, rfl⟩ := h2
        rw [PrepareDimensions_digits_x_digits a b ha hb]
        refine ⟨by simp, ?_⟩
        intro x hx
        simp only [List.mem_cons, List.mem_singleton, List.not_mem_nil, or_false] at hx
        rcases hx with hx | hx <;> subst hx <;> exact min_maxInt_nonneg _
      · have := herr.mpr ⟨h0, h1, h2⟩
        rw [hs] at this
        exact absurd this (by decide)

/-- Witness for `PrepareDimensions_value` at `200` and `300`. -/
theorem PrepareDimensions_value_witness :
    DigitString "200" ∧ DigitString "300" ∧
    PrepareDimensions "200" = ([min (decimalValue "200".data : Int) (2 ^ 63 - 1)], none) ∧
    PrepareDimensions ("200" ++ "x" ++ "300") =
      ([min (decimalValue "200".data : Int) (2 ^ 63 - 1),
        min (decimalValue "300".data : Int) (2 ^ 63 - 1)], none) :=
  ⟨by decide, by decide,
    (PrepareDimensions_value "200" "300" (by decide) (by decide)).1,
    (PrepareDimensions_value "200" "300" (by decide) (by decide)).2.1⟩

/-- C6. For a dimension sequence of one or two entries, `validateMaxDimensions` fails
exactly when some entry exceeds 3000; the message contains `width` when the first entry
exceeds 3000, and `height` when only the second one does. -/
theorem validateMaxDimensions_spec (d : List Int) (hlen : d.length = 1 ∨ d.length = 2) :
    ((validateMaxDimensions d).isSome = true ↔ ∃ x ∈ d, x > 3000) ∧
    (d.headD 0 > 3000 →
      ∃ msg, validateMaxDimensions d = some msg ∧ "width".data <:+: msg.data) ∧
    (d.headD 0 ≤ 3000 → (∃ x ∈ d, x > 3000) →
      ∃ msg, validateMaxDimensions d = some msg ∧ "height".data <:+: msg.data) := by
  rcases hlen with hlen | hlen
  · obtain ⟨a, rfl⟩ := List.length_eq_one.mp hlen
    by_cases ha : a > 3000
    · refine ⟨?_, ?_, ?_⟩
      · simp [validateMaxDimensions, MaxResizeSize, ha]
      · intro _
        exact ⟨"Requested resize width is abnormal",
          by simp [validateMaxDimensions, MaxResizeSize, ha], by decide⟩
      · intro hle
        simp only [List.headD_cons] at hle
        omega
    · refine ⟨?_, ?_, ?_⟩
      · simp [validateMaxDimensions, MaxResizeSize, ha]
      · intro h
        exact absurd h ha
      · rintro _ ⟨x, hx, hgt⟩
        simp only [List.mem_singleton] at hx
        subst hx
        exact absurd hgt ha
  · obtain ⟨a, b, rfl⟩ := List.length_eq_two.mp hlen
    by_cases ha : a > 3000
    · have hv : validateMaxDimensions [a, b] = some "Requested resize width is abnormal" := by
        simp [validateMaxDimensions, validateLoop, MaxResizeSize, ha]
      refine ⟨?_, ?_, ?_⟩
      · rw [hv]
        simp only [Option.isSome_some, true_iff]
        exact ⟨a, by simp, ha⟩
      · intro _
        exact ⟨_, hv, by decide⟩
      · intro hle
        simp only [List.headD_cons] at hle
        omega
    · by_cases hb : b > 3000
      · have hv : validateMaxDimensions [a, b] =
            some "Requested resize height is abnormal" := by
          simp [validateMaxDimensions, validateLoop, MaxResizeSize, ha, hb]
        refine ⟨?_, ?_, ?_⟩
        · rw [hv]
          simp only [Option.isSome_some, true_iff]
          exact ⟨b, by simp, hb⟩
        · intro h
          exact absurd h ha
        · intro _ _
          exact ⟨_, hv, by decide⟩
      · have hv : validateMaxDimensions [a, b] = none := by
          simp [validateMaxDimensions, validateLoop, MaxResizeSize, ha, hb]
        refine ⟨?_, ?_, ?_⟩
        · rw [hv]
          simp only [Option.isSome_none, Bool.false_eq_true, false_iff, not_exists, not_and]
          intro x hx
          simp only [List.mem_cons, List.mem_singleton, List.not_mem_nil, or_false] at hx
          rcases hx with hx | hx <;> subst hx <;> assumption
        · intro h
          exact absurd h ha
        · rintro _ ⟨x, hx, hgt⟩
          simp only [List.mem_cons, List.mem_singleton, List.not_mem_nil, or_false] at hx
          rcases hx with hx | hx <;> subst hx
          · exact absurd hgt ha
          · exact absurd hgt hb

/-- Witness for `validateMaxDimensions_spec`: the sequence `[3000, 3001]`. -/
theorem validateMaxDimensions_spec_witness :
    ([3000, 3001] : List Int).length = 2 ∧
    (validateMaxDimensions [3000, 3001]).isSome = true ∧
    validateMaxDimensions [3000] = none ∧
    validateMaxDimensions [3001] = some "Requested resize width is abnormal" :=
  ⟨rfl, (validateMaxDimensions_spec [3000, 3001] (Or.inr rfl)).1.mpr ⟨3001, by simp, by decide⟩,
    by decide, by decide⟩

/-- C8. For MIME type `image/gif`, whatever the input, the dimensions (empty or not,
within the 3000px limit or not) and the `Enlarge` flag, `ResizeImage` returns the input
reader itself, untouched, with no error, and sends no request to the image service. -/
theorem ResizeImage_gif (client : HttpClient) (decode : Bytes → Except GoError ImageInfo)
    (ctx : AppContext) (input : Bytes) :
    ResizeImage client decode ctx input "image/gif" =
      { reader := some Reader.ofInput, err := none,
        streams := { input := input, buf := [], result := [] }, requests := [] } ∧
    (ResizeImage client decode ctx input "image/gif").content = input := by
  have h : ResizeImage client decode ctx input "image/gif" =
      { reader := some Reader.ofInput, err := none,
        streams := { input := input, buf := [], result := [] }, requests := [] } := by
    unfold ResizeImage
    by_cases h0 : ctx.Dimensions.length = 0
    · simp only [h0, if_true]
    · simp only [h0, if_false, MIMEImageGIF, if_true]
  exact ⟨h, by rw [h]; rfl⟩

/-- C3, evaluated on the code: with width 100 requested for a three-byte JPEG stream and
an image service that reads the request body and answers 500 to `/thumbnail`,
`ResizeImage` returns the reader `input` without error, but that reader has already
been read to its end: nothing of the original content is left in it. This holds with
`Enlarge` set (the body is read through the tee) and with `Enlarge` unset (the `/info`
query has read it). -/
theorem ResizeImage_fallback_drained :
    (ResizeImage failingService decodeLarge
        { Config := exampleConfig, Options := { Enlarge := true, Resize := "100" },
          Dimensions := [100] } [255, 216, 255] "image/jpeg").reader = some Reader.ofInput ∧
    (ResizeImage failingService decodeLarge
        { Config := exampleConfig, Options := { Enlarge := true, Resize := "100" },
          Dimensions := [100] } [255, 216, 255] "image/jpeg").err = none ∧
    (ResizeImage failingService decodeLarge
        { Config := exampleConfig, Options := { Enlarge := true, Resize := "100" },
          Dimensions := [100] } [255, 216, 255] "image/jpeg").content = [] ∧
    (ResizeImage infoOnlyService decodeLarge
        { Config := exampleConfig, Options := { Enlarge := false, Resize := "100" },
          Dimensions := [100] } [255, 216, 255] "image/jpeg").reader = some Reader.ofInput ∧
    (ResizeImage infoOnlyService decodeLarge
        { Config := exampleConfig, Options := { Enlarge := false, Resize := "100" },
          Dimensions := [100] } [255, 216, 255] "image/jpeg").content = [] := by
  refine ⟨by decide, by decide, by decide, by decide, by decide⟩

theorem resizeURL_eq (ctx : AppContext) :
    resizeURL ctx =
      ctx.Config.ImageServiceURL ++ "/thumbnail?quality=92&width=" ++
        toString (ctx.Dimensions.getD 0 0) ++
        (if ctx.Dimensions.length = 2 then "&height=" ++ toString (ctx.Dimensions.getD 1 0)
          else "") := by
  have hq : toString ResizeJpegQuality = "92" := by decide
  have happ : ∀ a b c : String, a ++ b ++ c = a ++ (b ++ c) := by
    intro a b c
    apply String.ext
    simp [String.data_append]
  have hlit : "/thumbnail?quality=" ++ "92" ++ "&width=" = "/thumbnail?quality=92&width=" := by
    decide
  unfold resizeURL
  by_cases h2 : ctx.Dimensions.length = 2
  · simp only [h2, if_true, hq]
    rw [← hlit]
    simp only [happ]
  · simp only [h2, if_false, hq]
    rw [← hlit]
    apply String.ext
    simp [String.data_append]

theorem getImageInfo_ok (client : HttpClient) (decode : Bytes → Except GoError ImageInfo)
    (url mimeType : String) (input : Bytes) (consumed : Nat) (resp : HttpResponse)
    (info : ImageInfo)
    (hpost : client (url ++ "/info") mimeType input =
      { consumed := consumed, result := Except.ok resp })
    (hall : input.length ≤ consumed) (h200 : resp.StatusCode = 200)
    (hdec : decode resp.Body = Except.ok info) :
    getImageInfo client decode url Reader.tee mimeType
        { streams := { input := input, buf := [], result := [] }, requests := [] } =
      ((some info, none),
        { streams := { input := [], buf := input, result := [] },
          requests := [{ url := url ++ "/info", contentType := mimeType, sent := input }] }) := by
  unfold getImageInfo httpPost
  simp only [Reader.remaining, Reader.advance, hpost, h200, StatusOK, hdec,
    List.nil_append, List.take_of_length_le hall, List.drop_of_length_le hall,
    ne_eq, not_true_eq_false, if_false]

/-- C7. With `Enlarge` false, a non-GIF type and valid non-empty dimensions, when the
`/info` query reads the whole input, answers 200 and decodes to the native size
`(W, H)`: if `W` is below the requested width, or two dimensions are requested and `H`
is below the requested height, `ResizeImage` sends nothing but the `/info` request and
returns, without error, the buffer whose content is the original input; otherwise it
goes on to POST the buffered original to `/thumbnail`. -/
theorem ResizeImage_enlarge_policy (client : HttpClient)
    (decode : Bytes → Except GoError ImageInfo) (ctx : AppContext) (input : Bytes)
    (mimeType : String) (consumed : Nat) (resp : HttpResponse) (W H : Int)
    (hE : ctx.Options.Enlarge = false) (hgif : mimeType ≠ "image/gif")
    (hne : ctx.Dimensions ≠ []) (hval : validateMaxDimensions ctx.Dimensions = none)
    (hpost : client (ctx.Config.ImageServiceURL ++ "/info") mimeType input =
      { consumed := consumed, result := Except.ok resp })
    (hall : input.length ≤ consumed) (h200 : resp.StatusCode = 200)
    (hdec : decode resp.Body = Except.ok { Width := W, Height := H }) :
    ((W < ctx.Dimensions.getD 0 0 ∨
        (ctx.Dimensions.length = 2 ∧ H < ctx.Dimensions.getD 1 0)) →
      (ResizeImage client decode ctx input mimeType).requests =
          [{ url := ctx.Config.ImageServiceURL ++ "/info", contentType := mimeType,
             sent := input }] ∧
        (ResizeImage client decode ctx input mimeType).err = none ∧
        (ResizeImage client decode ctx input mimeType).reader = some Reader.ofBuf ∧
        (ResizeImage client decode ctx input mimeType).content = input) ∧
    (¬ (W < ctx.Dimensions.getD 0 0 ∨
        (ctx.Dimensions.length = 2 ∧ H < ctx.Dimensions.getD 1 0)) →
      (ResizeImage client decode ctx input mimeType).requests =
        [{ url := ctx.Config.ImageServiceURL ++ "/info", contentType := mimeType,
           sent := input },
         { url := ctx.Config.ImageServiceURL ++ "/thumbnail?quality=92&width=" ++
              toString (ctx.Dimensions.getD 0 0) ++
              (if ctx.Dimensions.length = 2 then
                "&height=" ++ toString (ctx.Dimensions.getD 1 0) else ""),
           contentType := mimeType,
           sent := input.take (client (ctx.Config.ImageServiceURL ++
              "/thumbnail?quality=92&width=" ++ toString (ctx.Dimensions.getD 0 0) ++
              (if ctx.Dimensions.length = 2 then
                "&height=" ++ toString (ctx.Dimensions.getD 1 0) else ""))
              mimeType input).consumed }]) := by
  have hlen : ¬ ctx.Dimensions.length = 0 := by
    intro h
    exact hne (List.length_eq_zero.mp h)
  have hinfo := getImageInfo_ok client decode ctx.Config.ImageServiceURL mimeType input
    consumed resp { Width := W, Height := H } hpost hall h200 hdec
  have hurl := resizeURL_eq ctx
  constructor
  · intro hsmall
    have hchk : checkImageForEnlarge client decode ctx.Config.ImageServiceURL Reader.tee
        mimeType ctx.Dimensions
          { streams := { input := input, buf := [], result := [] }, requests := [] } =
        ((false, none),
          { streams := { input := [], buf := input, result := [] },
            requests := [{ url := ctx.Config.ImageServiceURL ++ "/info",
                           contentType := mimeType, sent := input }] }) := by
      unfold checkImageForEnlarge
      rw [hinfo]
      by_cases hw : W < ctx.Dimensions.getD 0 0
      · simp only [hw, if_true]
      · rcases hsmall with hs | ⟨h2, hh⟩
        · exact absurd hs hw
        · simp only [hw, if_false, h2, if_true, hh]
    unfold ResizeImage
    simp only [hlen, if_false, MIMEImageGIF, hgif, hval, hE, hchk, Bool.false_eq_true,
      not_false_eq_true, true_or, if_true, ResizeResult.content, Reader.remaining,
      and_self]
  · intro hbig
    rw [not_or] at hbig
    obtain ⟨hw, hh⟩ := hbig
    have hchk : checkImageForEnlarge client decode ctx.Config.ImageServiceURL Reader.tee
        mimeType ctx.Dimensions
          { streams := { input := input, buf := [], result := [] }, requests := [] } =
        ((true, none),
          { streams := { input := [], buf := input, result := [] },
            requests := [{ url := ctx.Config.ImageServiceURL ++ "/info",
                           contentType := mimeType, sent := input }] }) := by
      unfold checkImageForEnlarge
      rw [hinfo]
      by_cases h2 : ctx.Dimensions.length = 2
      · have hh2 : ¬ H < ctx.Dimensions.getD 1 0 := fun h => hh ⟨h2, h⟩
        simp only [hw, if_false, h2, if_true, hh2]
      · simp only [hw, if_false, h2]
    rw [← hurl]
    unfold ResizeImage
    simp only [hlen, if_false, MIMEImageGIF, hgif, hval, hE, hchk, Bool.false_eq_true,
      not_false_eq_true, not_true_eq_false, Option.isSome_none, or_self, if_true]
    unfold postThumbnail httpPost
    simp only [Reader.remaining, Reader.advance]
    cases hres : (client (resizeURL ctx) mimeType input).result with
    | error e => simp
    | ok r =>
      by_cases hs : r.StatusCode = StatusOK
      · cases hb : r.bodyErr <;> simp [hs, hb]
      · simp [hs]

/-- Witness for `ResizeImage_enlarge_policy`: a 50 x 50 image and a requested width of
100; the resize is skipped and the original bytes come back. -/
theorem ResizeImage_enlarge_policy_witness :
    (ResizeImage infoOnlyService decodeSmall
        { Config := exampleConfig, Options := { Enlarge := false, Resize := "100" },
          Dimensions := [100] } [255, 216, 255] "image/jpeg").requests =
      [{ url := "http://imaginary:9000" ++ "/info", contentType := "image/jpeg",
         sent := [255, 216, 255] }] ∧
    (ResizeImage infoOnlyService decodeSmall
        { Config := exampleConfig, Options := { Enlarge := false, Resize := "100" },
          Dimensions := [100] } [255, 216, 255] "image/jpeg").content = [255, 216, 255] :=
  have h := (ResizeImage_enlarge_policy infoOnlyService decodeSmall
    { Config := exampleConfig, Options := { Enlarge := false, Resize := "100" },
      Dimensions := [100] } [255, 216, 255] "image/jpeg" 3 ⟨200, [123, 125], none⟩ 50 50
    rfl (by decide) (by decide) (by decide) rfl (by decide) rfl rfl).1
    (Or.inl (by decide))
  ⟨h.1, h.2.2.2⟩

theorem UploadHandler_rejected_type_general (env : Env) (ctx : AppContext)
    (r : UploadRequest) (file : FormFile)
    (hdims : (PrepareDimensions ctx.Options.Resize).2 = none)
    (hparse : parseMultipartForm r = none) (hfile : r.formFile = Except.ok file)
    (hcopy : file.copyErr = none)
    (htype : env.DetectContentType file.content ≠ "image/jpeg" ∧
      env.DetectContentType file.content ≠ "image/gif" ∧
      env.DetectContentType file.content ≠ "image/png") :
    (UploadHandler.ServeHTTP env ctx r).outcome =
        Outcome.panicked "runtime error: invalid memory address or nil pointer dereference" ∧
      (UploadHandler.ServeHTTP env ctx r).st.w.status = none ∧
      (UploadHandler.ServeHTTP env ctx r).st.storage = [] := by
  unfold UploadHandler.ServeHTTP
  rcases hpd : PrepareDimensions ctx.Options.Resize with ⟨dims, err⟩
  rw [hpd] at hdims
  simp only at hdims
  subst hdims
  simp only [hparse, hfile, hcopy, MIMEImageJPEG, MIMEImageGIF, MIMEImagePNG, htype,
    ne_eq, not_false_eq_true, and_self, if_true, renderError, ResponseWriter.new]

/-- C1, evaluated on the code: an upload whose form field `file` is present and readable
(the five bytes `hello`) and sniffs as `text/plain; charset=utf-8` makes
`UploadHandler.ServeHTTP` call `renderError` with the `nil` error; the handler ends in a
nil-dereference panic, no status (in particular not 400) has been written, and the
storage has not been called. -/
theorem UploadHandler_rejected_type_panics :
    parseMultipartForm textUpload = none ∧
    textUpload.formFile = Except.ok
      { content := [104, 101, 108, 108, 111], copyErr := none, contentType := "text/plain" } ∧
    exampleEnv.DetectContentType [104, 101, 108, 108, 111] = "text/plain; charset=utf-8" ∧
    (UploadHandler.ServeHTTP exampleEnv exampleCtx textUpload).outcome =
      Outcome.panicked "runtime error: invalid memory address or nil pointer dereference" ∧
    (UploadHandler.ServeHTTP exampleEnv exampleCtx textUpload).st.w.status = none ∧
    (UploadHandler.ServeHTTP exampleEnv exampleCtx textUpload).st.storage = [] := by
  refine ⟨by decide, rfl, rfl, by decide, by decide, by decide⟩

/-- C2, evaluated on the code: for the request URI `/v1/test/a.jpg`, with or without the
query string `?resize=200x200`, `DownloadHandler.ServeHTTP` calls `GetObject` with the
bucket name `v1` (the route prefix, not the bucket segment `test`) and the object name
`/test/a.jpg` (which includes the bucket segment). -/
theorem DownloadHandler_bucket_is_api_version :
    (DownloadHandler.ServeHTTP exampleEnv exampleCtx
        { RequestURI := "/v1/test/a.jpg", writeErr := none }).st.storage =
      [StorageCall.GetObject "v1" "/test/a.jpg"] ∧
    (DownloadHandler.ServeHTTP exampleEnv exampleCtx
        { RequestURI := "/v1/test/a.jpg?resize=200x200", writeErr := none }).st.storage =
      [StorageCall.GetObject "v1" "/test/a.jpg"] ∧
    (bucketAndObject { RequestURI := "/v1/test/a.jpg", writeErr := none }
        { w := ResponseWriter.new, ctx := exampleCtx, log := [], storage := [],
          requests := [] }).1 = "v1" := by
  refine ⟨by decide, by decide, by decide⟩

theorem hexEncode_length (bs : List (Fin 256)) : (hexEncode bs).length = 2 * bs.length := by
  induction bs with
  | nil => rfl
  | cons b bs ih =>
    have : hexEncode (b :: bs) =
        Nat.digitChar (b.val / 16) :: Nat.digitChar (b.val % 16) :: hexEncode bs := rfl
    rw [this]
    simp only [List.length_cons, ih]
    omega

theorem UUID_slice_length (u : UUID) (i j : Nat) (hij : i ≤ j) (hj : j ≤ 16) :
    (u.slice i j).length = j - i := by
  unfold UUID.slice
  simp only [List.length_take, List.length_drop, List.length_ofFn]
  omega

theorem UUID_String_length (u : UUID) : u.String.length = 36 := by
  unfold UUID.String
  simp only [String.length, List.length_append, List.length_cons, hexEncode_length,
    UUID_slice_length u 0 4 (by omega) (by omega),
    UUID_slice_length u 4 6 (by omega) (by omega),
    UUID_slice_length u 6 8 (by omega) (by omega),
    UUID_slice_length u 8 10 (by omega) (by omega),
    UUID_slice_length u 10 16 (by omega) (by omega)]

theorem filepathExt_jpg (s : String) : filepathExt (s ++ ".jpg") = ".jpg" := by
  unfold filepathExt
  have h : (s ++ ".jpg").data.reverse = 'g' :: 'p' :: 'j' :: '.' :: s.data.reverse := by
    simp [String.data_append]
  rw [h]
  rfl

theorem filepathExt_gif (s : String) : filepathExt (s ++ ".gif") = ".gif" := by
  unfold filepathExt
  have h : (s ++ ".gif").data.reverse = 'f' :: 'i' :: 'g' :: '.' :: s.data.reverse := by
    simp [String.data_append]
  rw [h]
  rfl

theorem filepathExt_png (s : String) : filepathExt (s ++ ".png") = ".png" := by
  unfold filepathExt
  have h : (s ++ ".png").data.reverse = 'g' :: 'n' :: 'p' :: '.' :: s.data.reverse := by
    simp [String.data_append]
  rw [h]
  rfl

theorem GenerateFileName_first_ext (env : Env) (fileType ext : String) (more : List String)
    (h : env.ExtensionsByType fileType = (ext :: more, none)) :
    GenerateFileName env fileType = (env.generateID.String ++ ext, none) := by
  unfold GenerateFileName
  rw [h]

/-- C9. When the MIME registry lists `.jpg`, `.gif`, `.png` first for `image/jpeg`,
`image/gif`, `image/png`, then for every generated identifier `GenerateFileName`
succeeds on each of the three types and returns the 36-character string form of the
UUID immediately followed by that extension, and `filepath.Ext` of the result is exactly
that extension. -/
theorem GenerateFileName_extension (env : Env)
    (hreg : RegistryAsSpecified env.ExtensionsByType) :
    env.generateID.String.length = 36 ∧
    GenerateFileName env "image/jpeg" = (env.generateID.String ++ ".jpg", none) ∧
    GenerateFileName env "image/gif" = (env.generateID.String ++ ".gif", none) ∧
    GenerateFileName env "image/png" = (env.generateID.String ++ ".png", none) ∧
    filepathExt (GenerateFileName env "image/jpeg").1 = ".jpg" ∧
    filepathExt (GenerateFileName env "image/gif").1 = ".gif" ∧
    filepathExt (GenerateFileName env "image/png").1 = ".png" := by
  obtain ⟨⟨m1, h1⟩, ⟨m2, h2⟩, ⟨m3, h3⟩⟩ := hreg
  have e1 := GenerateFileName_first_ext env _ _ _ h1
  have e2 := GenerateFileName_first_ext env _ _ _ h2
  have e3 := GenerateFileName_first_ext env _ _ _ h3
  refine ⟨UUID_String_length _, e1, e2, e3, ?_, ?_, ?_⟩
  · rw [e1]; exact filepathExt_jpg _
  · rw [e2]; exact filepathExt_gif _
  · rw [e3]; exact filepathExt_png _

/-- Witness for `GenerateFileName_extension`: the example environment, whose identifier
is the all-zero UUID. -/
theorem GenerateFileName_extension_witness :
    RegistryAsSpecified exampleEnv.ExtensionsByType ∧
    (GenerateFileName exampleEnv "image/jpeg").1 =
      "00000000-0000-0000-0000-000000000000.jpg" ∧
    filepathExt (GenerateFileName exampleEnv "image/jpeg").1 = ".jpg" :=
  have hreg : RegistryAsSpecified exampleEnv.ExtensionsByType :=
    ⟨⟨[], rfl⟩, ⟨[], rfl⟩, ⟨[], rfl⟩⟩
  ⟨hreg, by rw [(GenerateFileName_extension exampleEnv hreg).2.1]; decide,
    (GenerateFileName_extension exampleEnv hreg).2.2.2.2.1⟩

theorem tdiv_eq_floor_of_nonneg (x : ℚ) (hx : 0 ≤ x) : Int.tdiv x.num x.den = ⌊x⌋ := by
  rw [Rat.floor_def]
  exact Int.tdiv_eq_ediv (Rat.num_nonneg.mpr hx) (Int.natCast_nonneg _)

theorem tdiv_eq_ceil_of_nonpos (x : ℚ) (hx : x ≤ 0) : Int.tdiv x.num x.den = ⌈x⌉ := by
  have h := tdiv_eq_floor_of_nonneg (-x) (neg_nonneg.mpr hx)
  rw [Rat.neg_num, Rat.neg_den, Int.neg_tdiv] at h
  have hc : ⌈x⌉ = -⌊-x⌋ := by
    rw [Int.floor_neg, neg_neg]
  rw [hc, ← h, neg_neg]

theorem floatToInt_of_fits (x : ℚ) (t : Int) (ht : Int.tdiv x.num x.den = t)
    (hfit : -(2 : Int) ^ 63 ≤ t ∧ t ≤ 2 ^ 63 - 1) : floatToInt x = t := by
  unfold floatToInt
  simp only [ht]
  rw [if_pos hfit]

theorem round_eq_halfAwayFromZero (num : ℚ)
    (hfit : -(2 : Int) ^ 63 ≤ halfAwayFromZero num ∧ halfAwayFromZero num ≤ 2 ^ 63 - 1) :
    round num = halfAwayFromZero num := by
  unfold round mathCopysign
  unfold halfAwayFromZero at hfit ⊢
  have habs : |(1 / 2 : ℚ)| = 1 / 2 := abs_of_pos (by norm_num)
  by_cases h0 : 0 ≤ num
  · rw [if_pos h0] at hfit ⊢
    rw [if_pos h0, habs]
    exact floatToInt_of_fits _ _
      (tdiv_eq_floor_of_nonneg _ (by linarith)) hfit
  · rw [if_neg h0] at hfit ⊢
    rw [if_neg h0, habs]
    have hneg : num + -(1 / 2) = num - 1 / 2 := by ring
    rw [hneg]
    exact floatToInt_of_fits _ _
      (tdiv_eq_ceil_of_nonpos _ (by push_neg at h0; linarith)) hfit

theorem halfAwayFromZero_of_nonneg (x : ℚ) (n : Int) (h0 : 0 ≤ x)
    (h1 : (n : ℚ) ≤ x + 1 / 2) (h2 : x + 1 / 2 < n + 1) : halfAwayFromZero x = n := by
  unfold halfAwayFromZero
  rw [if_pos h0]
  exact Int.floor_eq_iff.mpr ⟨h1, h2⟩

theorem round_of_nonneg (x : ℚ) (n : Int) (h0 : 0 ≤ x)
    (h1 : (n : ℚ) ≤ x + 1 / 2) (h2 : x + 1 / 2 < n + 1)
    (hn : -(2 : Int) ^ 63 ≤ n ∧ n ≤ 2 ^ 63 - 1) : round x = n := by
  have h := halfAwayFromZero_of_nonneg x n h0 h1 h2
  rw [round_eq_halfAwayFromZero x (by rw [h]; exact hn), h]

theorem toFixed_natCast (num : ℚ) (p : ℕ) :
    toFixed num (p : Int) = (round (num * 10 ^ p) : ℚ) / 10 ^ p := by
  unfold toFixed mathPow
  simp only [zpow_natCast]

/-- C10. In exact arithmetic, whenever the value rounded half away from zero fits the
range of `int`, `round num` is `floor(num + 0.5)` for `num >= 0` and `ceil(num - 0.5)`
for `num < 0`; for every precision `p >= 0`, `toFixed num p` is
`round (num * 10^p) / 10^p`; and `round 1.56 = 2`, `round 1.38 = 1`, `round 30.12 = 30`,
`toFixed 1.56 1 = 1.6`, `toFixed 0.99 1 = 1`, `toFixed 1.02 1 = 1`. -/
theorem round_toFixed_spec (num : ℚ) (p : ℕ)
    (hfit : -(2 : Int) ^ 63 ≤ halfAwayFromZero num ∧ halfAwayFromZero num ≤ 2 ^ 63 - 1) :
    (0 ≤ num → round num = ⌊num + 1 / 2⌋) ∧
    (num < 0 → round num = ⌈num - 1 / 2⌉) ∧
    toFixed num (p : Int) = (round (num * 10 ^ p) : ℚ) / 10 ^ p ∧
    round (156 / 100) = 2 ∧ round (138 / 100) = 1 ∧ round (3012 / 100) = 30 ∧
    toFixed (156 / 100) 1 = 16 / 10 ∧ toFixed (99 / 100) 1 = 1 ∧
    toFixed (102 / 100) 1 = 1 := by
  have hr := round_eq_halfAwayFromZero num hfit
  have r156 : round (156 / 100) = 2 :=
    round_of_nonneg _ 2 (by norm_num) (by norm_num) (by norm_num) (by norm_num)
  have r138 : round (138 / 100) = 1 :=
    round_of_nonneg _ 1 (by norm_num) (by norm_num) (by norm_num) (by norm_num)
  have r3012 : round (3012 / 100) = 30 :=
    round_of_nonneg _ 30 (by norm_num) (by norm_num) (by norm_num) (by norm_num)
  have t156 : toFixed (156 / 100) 1 = 16 / 10 := by
    have h := toFixed_natCast (156 / 100) 1
    have hr : round (156 / 100 * 10 ^ 1) = 16 :=
      round_of_nonneg _ 16 (by norm_num) (by norm_num) (by norm_num) (by norm_num)
    rw [hr] at h
    simpa using h
  have t99 : toFixed (99 / 100) 1 = 1 := by
    have h := toFixed_natCast (99 / 100) 1
    have hr : round (99 / 100 * 10 ^ 1) = 10 :=
      round_of_nonneg _ 10 (by norm_num) (by norm_num) (by norm_num) (by norm_num)
    rw [hr] at h
    simpa using h
  have t102 : toFixed (102 / 100) 1 = 1 := by
    have h := toFixed_natCast (102 / 100) 1
    have hr : round (102 / 100 * 10 ^ 1) = 10 :=
      round_of_nonneg _ 10 (by norm_num) (by norm_num) (by norm_num) (by norm_num)
    rw [hr] at h
    simpa using h
  refine ⟨?_, ?_, toFixed_natCast num p, r156, r138, r3012, t156, t99, t102⟩
  · intro h0
    rw [hr, halfAwayFromZero, if_pos h0]
  · intro h0
    rw [hr, halfAwayFromZero, if_neg (not_le.mpr h0)]

/-- Witness for `round_toFixed_spec` at `num = -1.5` and precision 1: the value rounds
away from zero to `-2`. -/
theorem round_toFixed_spec_witness :
    (-(2 : Int) ^ 63 ≤ halfAwayFromZero (-3 / 2) ∧ halfAwayFromZero (-3 / 2) ≤ 2 ^ 63 - 1) ∧
    round (-3 / 2) = ⌈(-3 / 2 : ℚ) - 1 / 2⌉ ∧ ⌈(-3 / 2 : ℚ) - 1 / 2⌉ = -2 :=
  have hc : ⌈(-3 / 2 : ℚ) - 1 / 2⌉ = -2 := by
    rw [Int.ceil_eq_iff]
    constructor <;> norm_num
  have hh : halfAwayFromZero (-3 / 2) = -2 := by
    unfold halfAwayFromZero
    rw [if_neg (by norm_num), hc]
  have hfit : -(2 : Int) ^ 63 ≤ halfAwayFromZero (-3 / 2) ∧
      halfAwayFromZero (-3 / 2) ≤ 2 ^ 63 - 1 := by
    rw [hh]
    norm_num
  ⟨hfit, (round_toFixed_spec (-3 / 2) 1 hfit).2.1 (by norm_num), hc⟩

theorem toMegaBytes_eq_floor (b : Nat) (hb : b < 2 ^ 64) :
    toMegaBytes b = ((⌊(b : ℚ) / 1048576 * 100 + 1 / 2⌋ : Int) : ℚ) / 100 := by
  have hpow : mathPow 10 2 = 100 := by
    unfold mathPow
    norm_num
  have hMB : MB = 1048576 := by
    unfold MB
    norm_num
  have hb2 : b < 18446744073709551616 := by
    have h := hb
    norm_num at h
    exact h
  have hb' : (b : ℚ) < 18446744073709551616 := by exact_mod_cast hb2
  have hx0 : (0 : ℚ) ≤ (b : ℚ) / 1048576 * 100 := by positivity
  have hh : halfAwayFromZero ((b : ℚ) / 1048576 * 100) =
      ⌊(b : ℚ) / 1048576 * 100 + 1 / 2⌋ := by
    unfold halfAwayFromZero
    rw [if_pos hx0]
  have hlo : (0 : Int) ≤ ⌊(b : ℚ) / 1048576 * 100 + 1 / 2⌋ :=
    Int.floor_nonneg.mpr (by linarith)
  have hhi : ⌊(b : ℚ) / 1048576 * 100 + 1 / 2⌋ ≤ 2 ^ 63 - 1 := by
    have h1 : ⌊(b : ℚ) / 1048576 * 100 + 1 / 2⌋ < 2 ^ 63 := by
      rw [Int.floor_lt]
      have : (b : ℚ) / 1048576 * 100 < 18446744073709551616 / 1048576 * 100 := by
        apply mul_lt_mul_of_pos_right _ (by norm_num)
        exact div_lt_div_of_pos_right hb' (by norm_num)
      norm_num at this ⊢
      linarith
    omega
  have hr := round_eq_halfAwayFromZero ((b : ℚ) / 1048576 * 100)
    (by rw [hh]; exact ⟨by omega, hhi⟩)
  unfold toMegaBytes toFixed
  simp only [hpow, hMB]
  rw [hr, hh]

theorem toMegaBytes_whole (k : Nat) (hk : k * 1048576 < 2 ^ 64) :
    toMegaBytes (k * 1048576) = k := by
  rw [toMegaBytes_eq_floor _ hk]
  have hx : ((k * 1048576 : Nat) : ℚ) / 1048576 * 100 + 1 / 2 = ((k * 100 : Nat) : ℚ) + 1 / 2 := by
    push_cast
    ring
  have hf : ⌊((k * 1048576 : Nat) : ℚ) / 1048576 * 100 + 1 / 2⌋ = ((k * 100 : Nat) : Int) := by
    rw [hx, Int.floor_eq_iff]
    constructor
    · push_cast
      linarith
    · push_cast
      linarith
  rw [hf]
  push_cast
  ring

/-- C11. In exact arithmetic, for every `uint64` byte count `b`, `toMegaBytes b` is
`n / 100` for the integer `n` with `n - 1/2 <= 100 * b / 1048576 < n + 1/2` (the nearest
multiple of 0.01, a tie going up), hence within 0.005 of `b / 1048576`; a whole number
`k` of mebibytes gives exactly `k` (in particular for `k` = 1, 10, 100, 250), and 1024
bytes give 0. -/
theorem toMegaBytes_spec (b : Nat) (hb : b < 2 ^ 64) :
    (∃ n : Int, toMegaBytes b = (n : ℚ) / 100 ∧
      (n : ℚ) - 1 / 2 ≤ 100 * ((b : ℚ) / 1048576) ∧
      100 * ((b : ℚ) / 1048576) < (n : ℚ) + 1 / 2) ∧
    |toMegaBytes b - (b : ℚ) / 1048576| ≤ 5 / 1000 ∧
    (∀ k : Nat, k * 1048576 < 2 ^ 64 → toMegaBytes (k * 1048576) = k) ∧
    toMegaBytes (1 * 1048576) = 1 ∧ toMegaBytes (10 * 1048576) = 10 ∧
    toMegaBytes (100 * 1048576) = 100 ∧ toMegaBytes (250 * 1048576) = 250 ∧
    toMegaBytes 1024 = 0 := by
  have heq := toMegaBytes_eq_floor b hb
  have hle := Int.floor_le ((b : ℚ) / 1048576 * 100 + 1 / 2)
  have hlt := Int.lt_floor_add_one ((b : ℚ) / 1048576 * 100 + 1 / 2)
  refine ⟨⟨⌊(b : ℚ) / 1048576 * 100 + 1 / 2⌋, heq, by linarith, by linarith⟩, ?_,
    toMegaBytes_whole, ?_, ?_, ?_, ?_, ?_⟩
  · rw [heq, abs_le]
    constructor <;> linarith
  · have := toMegaBytes_whole 1 (by norm_num)
    simpa using this
  · have := toMegaBytes_whole 10 (by norm_num)
    simpa using this
  · have := toMegaBytes_whole 100 (by norm_num)
    simpa using this
  · have := toMegaBytes_whole 250 (by norm_num)
    simpa using this
  · rw [toMegaBytes_eq_floor 1024 (by norm_num)]
    have hf : ⌊((1024 : Nat) : ℚ) / 1048576 * 100 + 1 / 2⌋ = 0 := by
      rw [Int.floor_eq_iff]
      constructor <;> norm_num
    rw [hf]
    norm_num

/-- Witness for `toMegaBytes_spec` at 1,572,864 bytes (one and a half mebibytes): the
result is 1.5. -/
theorem toMegaBytes_spec_witness :
    (1572864 : Nat) < 2 ^ 64 ∧
    |toMegaBytes 1572864 - ((1572864 : Nat) : ℚ) / 1048576| ≤ 5 / 1000 :=
  ⟨by norm_num, (toMegaBytes_spec 1572864 (by norm_num)).2.1⟩

theorem schemaDecode_nil (dst : Options) : schemaDecode dst [] = (dst, none) := rfl

theorem OptionsMW_no_query (ctx : AppContext) (next : AppContext → Served) :
    OptionsMW.Middleware ctx [] next = next ctx := by
  unfold OptionsMW.Middleware
  rw [schemaDecode_nil]

/-- C12, evaluated on the code: a download with `resize=200x200&enlarge=true` followed,
in the same process, by a download without any query string. The second request is
handled with `Resize = "200x200"`, `Enlarge = true` and dimensions `[200, 200]`, and it
sends the same `/thumbnail` request as the first; served first by a fresh process, the
same request is handled with the zero options, no dimensions and no request to the image
service. -/
theorem options_persist_across_requests :
    (serveAll (CreateContext exampleConfig) twoDownloads).map (fun s => s.st.ctx.Options) =
      [{ Enlarge := true, Resize := "200x200" }, { Enlarge := true, Resize := "200x200" }] ∧
    (serveAll (CreateContext exampleConfig) twoDownloads).map
        (fun s => s.st.ctx.Dimensions) = [[200, 200], [200, 200]] ∧
    (serveAll (CreateContext exampleConfig) twoDownloads).map
        (fun s => s.st.requests.map (fun q => q.url)) =
      [["http://imaginary:9000/thumbnail?quality=92&width=200&height=200"],
       ["http://imaginary:9000/thumbnail?quality=92&width=200&height=200"]] ∧
    (serveAll (CreateContext exampleConfig) (twoDownloads.drop 1)).map
        (fun s => (s.st.ctx.Options, s.st.ctx.Dimensions, s.st.requests)) =
      [({ Enlarge := false, Resize := "" }, [], [])] := by
  refine ⟨by decide, by decide, by decide, by decide⟩

theorem registryAsSpecified_lists (ext : String → List String × Option GoError)
    (h : RegistryAsSpecified ext) : RegistryListsAcceptedTypes ext := by
  obtain ⟨⟨m1, h1⟩, ⟨m2, h2⟩, ⟨m3, h3⟩⟩ := h
  intro t ht
  rcases ht with rfl | rfl | rfl
  · rw [h1]; exact ⟨rfl, by simp⟩
  · rw [h2]; exact ⟨rfl, by simp⟩
  · rw [h3]; exact ⟨rfl, by simp⟩

theorem UUID_String_ne_empty (u : UUID) (ext : String) : u.String ++ ext ≠ "" := by
  intro h
  have hl := congrArg String.length h
  rw [String.length_append, UUID_String_length] at hl
  simp at hl

theorem GenerateFileName_accepted (env : Env) (fileType : String)
    (hreg : RegistryListsAcceptedTypes env.ExtensionsByType)
    (htype : fileType = "image/jpeg" ∨ fileType = "image/gif" ∨ fileType = "image/png") :
    ∃ ext0 : String, GenerateFileName env fileType = (env.generateID.String ++ ext0, none) := by
  obtain ⟨herr, hne⟩ := hreg fileType htype
  unfold GenerateFileName
  rcases hx : env.ExtensionsByType fileType with ⟨exts, err⟩
  rw [hx] at herr hne
  simp only at herr hne
  subst herr
  cases exts with
  | nil => exact absurd rfl hne
  | cons ext0 more => exact ⟨ext0, rfl⟩

theorem renderError_storage (st : HandlerState) (err : Option GoError) (message : String)
    (statusCode : Nat) : (renderError st err message statusCode).st.storage = st.storage := by
  unfold renderError
  cases err <;> rfl

theorem uploadStore_storage (env : Env) (r : UploadRequest) (file : FormFile) (buf : Bytes)
    (fileType fileName : String) (st : HandlerState) (hst : st.storage = [])
    (hgen : GenerateFileName env fileType = (fileName, none)) :
    ∀ call ∈ (uploadStore env r file buf fileType st).st.storage,
      ∃ data, call = StorageCall.PutObject r.bucket fileName data file.contentType := by
  unfold uploadStore
  rw [hgen]
  simp only [Served.andThen]
  split
  · intro call hc
    rw [renderError_storage] at hc
    simp only [hst] at hc
    exact absurd hc (List.not_mem_nil _)
  · split
    · intro call hc
      rw [renderError_storage] at hc
      simp only [hst, List.nil_append, List.mem_singleton] at hc
      exact ⟨_, hc⟩
    · split
      · intro call hc
        rw [renderError_storage] at hc
        simp only [hst, List.nil_append, List.mem_singleton] at hc
        exact ⟨_, hc⟩
      · intro call hc
        simp only [hst, List.nil_append, List.mem_singleton] at hc
        exact ⟨_, hc⟩

/-- C13. For every upload that passes the size, form-field and content-type checks, in a
process whose MIME registry lists an extension for each accepted type: `GenerateFileName`
returns no error and a name made of the UUID and an extension, and every call of
`PutObject` the handler makes is under that generated name. Hence the implication of the
claim (an error of `GenerateFileName` gives the 500 response alone, without a call of
the storage) holds on these requests, its premise never being met. -/
theorem UploadHandler_filename_failure (env : Env) (ctx : AppContext) (r : UploadRequest)
    (file : FormFile) (hreg : RegistryListsAcceptedTypes env.ExtensionsByType)
    (hparse : parseMultipartForm r = none) (hfile : r.formFile = Except.ok file)
    (hcopy : file.copyErr = none)
    (htype : env.DetectContentType file.content = "image/jpeg" ∨
      env.DetectContentType file.content = "image/gif" ∨
      env.DetectContentType file.content = "image/png") :
    (∀ e : GoError,
      (GenerateFileName env (env.DetectContentType file.content)).2 = some e →
        (UploadHandler.ServeHTTP env ctx r).st.w.status = some 500 ∧
        (UploadHandler.ServeHTTP env ctx r).st.storage = [] ∧
        (UploadHandler.ServeHTTP env ctx r).st.w.body = [Chunk.text (e ++ "\n")]) ∧
    (GenerateFileName env (env.DetectContentType file.content)).2 = none ∧
    (GenerateFileName env (env.DetectContentType file.content)).1 ≠ "" ∧
    (∀ call ∈ (UploadHandler.ServeHTTP env ctx r).st.storage,
      ∃ data, call = StorageCall.PutObject r.bucket
        (GenerateFileName env (env.DetectContentType file.content)).1 data
        file.contentType) := by
  obtain ⟨ext0, hgen⟩ := GenerateFileName_accepted env _ hreg htype
  have haccept : ¬ (env.DetectContentType file.content ≠ MIMEImageJPEG ∧
      env.DetectContentType file.content ≠ MIMEImageGIF ∧
      env.DetectContentType file.content ≠ MIMEImagePNG) := by
    unfold MIMEImageJPEG MIMEImageGIF MIMEImagePNG
    rintro ⟨h1, h2, h3⟩
    rcases htype with h | h | h
    · exact h1 h
    · exact h2 h
    · exact h3 h
  refine ⟨?_, ?_, ?_, ?_⟩
  · intro e he
    rw [hgen] at he
    exact absurd he (by simp)
  · rw [hgen]
  · rw [hgen]
    exact UUID_String_ne_empty _ _
  · rw [hgen]
    unfold UploadHandler.ServeHTTP
    rcases hpd : PrepareDimensions ctx.Options.Resize with ⟨dims, err⟩
    cases err with
    | some e =>
      intro call hc
      simp only [renderError_storage] at hc
      exact absurd hc (List.not_mem_nil _)
    | none =>
      simp only [hparse, hfile, hcopy, if_neg haccept]
      exact uploadStore_storage env r file _ _ _ _ rfl hgen

/-- Witness for `UploadHandler_filename_failure`: a JPEG upload in the environment
`jpegEnv`; the object is stored under the generated name. -/
theorem UploadHandler_filename_failure_witness :
    RegistryListsAcceptedTypes jpegEnv.ExtensionsByType ∧
    (GenerateFileName jpegEnv (jpegEnv.DetectContentType [255, 216, 255])).2 = none ∧
    (UploadHandler.ServeHTTP jpegEnv exampleCtx jpegUpload).st.storage =
      [StorageCall.PutObject "test" "00000000-0000-0000-0000-000000000000.jpg"
        [255, 216, 255] "image/jpeg"] ∧
    (∀ call ∈ (UploadHandler.ServeHTTP jpegEnv exampleCtx jpegUpload).st.storage,
      ∃ data, call = StorageCall.PutObject "test"
        (GenerateFileName jpegEnv (jpegEnv.DetectContentType [255, 216, 255])).1 data
        "image/jpeg") :=
  have hreg : RegistryListsAcceptedTypes jpegEnv.ExtensionsByType :=
    registryAsSpecified_lists _ ⟨⟨[], rfl⟩, ⟨[], rfl⟩, ⟨[], rfl⟩⟩
  have h := UploadHandler_filename_failure jpegEnv exampleCtx jpegUpload
    { content := [255, 216, 255], copyErr := none, contentType := "image/jpeg" }
    hreg (by decide) rfl rfl (Or.inl rfl)
  ⟨hreg, h.2.1, by decide, h.2.2.2⟩

end Img2sto
